import Mathlib

/-!
Withdraw permission evaluators of the graphene chain library.

A shallow embedding of `libraries/chain/withdraw_permission_evaluator.cpp`
(the create, claim, update and delete evaluators of recurring withdrawal
permissions) together with the parts of the object database, the balance
ledger and the time types that these evaluators call, and of the history
objects of `operation_history_object.hpp` with the per-account history chain
built from them.

Conventions of the embedding:

* `fc::time_point_sec`, `uint32_t` and `uint8_t` values are natural numbers;
  every 32-bit operation reduces modulo `2 ^ 32` explicitly.
* `share_type` amounts are mathematical integers.
* Code that can throw returns `Except evaluation_error _`.
* The object database is passed explicitly; an evaluator's `do_evaluate`
  only reads it, `do_apply` returns the successor database.
-/

namespace graphene.chain

/-! ## Identifiers, amounts and time -/

abbrev account_id_type := Nat
abbrev asset_id_type := Nat
abbrev withdraw_permission_id_type := Nat
abbrev share_type := Int

/-- The ways in which an evaluator can stop without a result. -/
inductive evaluation_error where
  /-- an `FC_ASSERT` whose condition is false -/
  | assert_exception
  /-- a dereference `d.get(id)` or `id(d)` of an identifier that resolves to no object -/
  | object_not_found
  /-- a call of `adjust_balance` that would leave a negative balance -/
  | insufficient_balance
  /-- integer division by zero -/
  | divide_by_zero
deriving DecidableEq, Repr

/-- The macro `FC_ASSERT(c)` of the fc library: continue when `c` holds, throw
otherwise. -/
def FC_ASSERT (c : Bool) : Except evaluation_error Unit :=
  if c then .ok () else .error .assert_exception

/-- An amount of one asset type: the pair `(amount, asset_id)`. -/
structure asset where
  amount : share_type
  asset_id : asset_id_type
deriving DecidableEq, Repr

/-- Unary minus on an asset, as in `-op.amount_to_withdraw`. -/
def asset.neg (a : asset) : asset := { a with amount := -a.amount }

/-- Product of two `uint32_t` values, wrapping at 32 bits. -/
def uint32_mul (a b : Nat) : Nat := (a * b) % 2 ^ 32

/-- The `time_point_sec + uint32_t` sum: seconds are a `uint32_t` and the
sum wraps at 32 bits. -/
def time_point_sec_add (t offset : Nat) : Nat := (t + offset) % 2 ^ 32

/-- The `(a - b).to_seconds()` value of two `time_point_sec`: the difference
of two time points is a signed duration, so the result is negative when `a`
is earlier than `b`. -/
def time_point_sec_diff (a b : Nat) : Int := (a : Int) - (b : Int)

/-- Conversion of a signed 64-bit value to `uint32_t` (reduction modulo
`2 ^ 32`), as happens to the argument of `time_point_sec::operator+=`. -/
def to_uint32 (x : Int) : Nat := (x % 2 ^ 32).toNat

/-! ## Objects -/

/-- Modelled from the spec: the WithdrawPermission record of the data model
(its declaration, `withdraw_permission_object.hpp`, is not part of the
sources at hand); the fields are the ones the evaluators read and write. -/
structure withdraw_permission_object where
  withdraw_from_account : account_id_type
  authorized_account : account_id_type
  withdrawal_limit : asset
  withdrawal_period_sec : Nat
  period_start_time : Nat
  expiration : Nat
  claimed_this_period : share_type
deriving DecidableEq, Repr

/-- Modelled from the spec: the asset collaborator, reduced to what the claim
evaluator asks of it: `issuer`, `is_transfer_restricted()` and
`enforce_white_list()`. -/
structure asset_object where
  issuer : account_id_type
  is_transfer_restricted : Bool
  enforce_white_list : Bool
deriving DecidableEq, Repr

/-- Modelled from the spec: the account collaborator, reduced to the
predicate `is_authorized_asset`; the assets an account is whitelist-authorized
for are kept as a table of asset identifiers. -/
structure account_object where
  authorized_assets : List asset_id_type
deriving DecidableEq, Repr

/-- Modelled from the spec: `account.is_authorized_asset(asset)` for the asset
with identifier `a`. -/
def account_object.is_authorized_asset (acct : account_object) (a : asset_id_type) : Bool :=
  decide (a ∈ acct.authorized_assets)

/-- Modelled from the spec: one row of the balance ledger, the balance of one
account in one asset. -/
structure account_balance_object where
  owner : account_id_type
  asset_type : asset_id_type
  balance : share_type
deriving DecidableEq, Repr

/-! ## Operations -/

/-- Modelled from the spec: the inputs of Create (the operation's declaration
is not part of the sources at hand); the fields are the ones the evaluator
reads. -/
structure withdraw_permission_create_operation where
  withdraw_from_account : account_id_type
  authorized_account : account_id_type
  withdrawal_limit : asset
  withdrawal_period_sec : Nat
  periods_until_expiration : Nat
  period_start_time : Nat
deriving DecidableEq, Repr

/-- Modelled from the spec: the inputs of Claim; `amount_to_withdraw` is an
amount of one asset. -/
structure withdraw_permission_claim_operation where
  withdraw_permission : withdraw_permission_id_type
  withdraw_from_account : account_id_type
  withdraw_to_account : account_id_type
  amount_to_withdraw : asset
deriving DecidableEq, Repr

/-- Modelled from the spec: the inputs of Update. -/
structure withdraw_permission_update_operation where
  withdraw_from_account : account_id_type
  authorized_account : account_id_type
  permission_to_update : withdraw_permission_id_type
  withdrawal_limit : asset
  withdrawal_period_sec : Nat
  period_start_time : Nat
  periods_until_expiration : Nat
deriving DecidableEq, Repr

/-- Modelled from the spec: the inputs of Delete. -/
structure withdraw_permission_delete_operation where
  withdraw_from_account : account_id_type
  authorized_account : account_id_type
  withdrawal_permission : withdraw_permission_id_type
deriving DecidableEq, Repr

/-! ## The object database -/

/-- Modelled from the spec: the object store and chain context the evaluators
run against. Each object type has its own table, addressed by the object's
sequence number; `create` allocates the next sequence number at the end of
the table and `remove` empties a slot, so identifiers are never reused.
`head_block_time` is the current chain time and `block_interval` the
`parameters.block_interval` global property. -/
structure database where
  head_block_time : Nat
  block_interval : Nat
  accounts : List account_object
  assets : List asset_object
  balances : List account_balance_object
  withdraw_permissions : List (Option withdraw_permission_object)
deriving DecidableEq, Repr

namespace database

/-- Modelled from the spec: the object store's `find(id)` on an account, as in
`d.find_object(op.withdraw_from_account)`. -/
def find_account (d : database) (id : account_id_type) : Option account_object :=
  d.accounts[id]?

/-- Modelled from the spec: the object store's `find(id)` on an asset, as in
`d.find_object(op.withdrawal_limit.asset_id)`. -/
def find_asset (d : database) (id : asset_id_type) : Option asset_object :=
  d.assets[id]?

/-- Modelled from the spec: the object store's `find(id)` on a withdraw
permission; an emptied slot and an identifier never allocated both find
nothing. -/
def find_withdraw_permission (d : database) (id : withdraw_permission_id_type) :
    Option withdraw_permission_object :=
  (d.withdraw_permissions[id]?).join

/-- Modelled from the spec: the object store's `get(id)` on an account, written
`id(d)` in the source: throws when nothing is found. -/
def get_account (d : database) (id : account_id_type) : Except evaluation_error account_object :=
  match d.find_account id with
  | some a => .ok a
  | none => .error .object_not_found

/-- Modelled from the spec: the object store's `get(id)` on an asset, written
`id(d)` in the source: throws when nothing is found. -/
def get_asset (d : database) (id : asset_id_type) : Except evaluation_error asset_object :=
  match d.find_asset id with
  | some a => .ok a
  | none => .error .object_not_found

/-- Modelled from the spec: the object store's `get(id)` on a withdraw
permission, written `d.get(id)` or `id(d)` in the source: throws when nothing
is found. -/
def get_withdraw_permission (d : database) (id : withdraw_permission_id_type) :
    Except evaluation_error withdraw_permission_object :=
  match d.find_withdraw_permission id with
  | some p => .ok p
  | none => .error .object_not_found

/-- Modelled from the spec: the object store's `get_next_id`, the identifier the
next created withdraw permission will get
(`get_index_type<withdraw_permission_index>().get_next_id()`). -/
def get_next_id (d : database) : withdraw_permission_id_type :=
  d.withdraw_permissions.length

/-- Modelled from the spec: the object store's `create`, as in
`d.create<withdraw_permission_object>(init)`: stores the object under the next
identifier and returns that identifier. -/
def create (d : database) (p : withdraw_permission_object) :
    withdraw_permission_id_type × database :=
  (d.get_next_id, { d with withdraw_permissions := d.withdraw_permissions ++ [some p] })

/-- Modelled from the spec: the object store's `modify(obj, mutator)` on the
withdraw permission stored under `id`, whose new value is `p`. -/
def modify (d : database) (id : withdraw_permission_id_type) (p : withdraw_permission_object) :
    database :=
  { d with withdraw_permissions := d.withdraw_permissions.set id (some p) }

/-- Modelled from the spec: the object store's `remove(obj)` on the withdraw
permission stored under `id`. -/
def remove (d : database) (id : withdraw_permission_id_type) : database :=
  { d with withdraw_permissions := d.withdraw_permissions.set id none }

/-- Modelled from the spec: the amount that the balance ledger's
`get_balance(account, asset)` returns: the balance of the first ledger row of
that owner and asset, zero when there is none. -/
def get_balance_amount (d : database) (owner : account_id_type) (a : asset_id_type) : share_type :=
  match d.balances.find? (fun b => b.owner == owner && b.asset_type == a) with
  | some b => b.balance
  | none => 0

/-- Modelled from the spec: the balance ledger's `get_balance(account, asset)`,
as an amount of that asset. -/
def get_balance (d : database) (owner : account_id_type) (a : asset_id_type) : asset :=
  { amount := d.get_balance_amount owner a, asset_id := a }

/-- Modelled from the spec: the ledger update behind `adjust_balance`: adds
`delta` to the first ledger row of `owner` and asset `a`, or appends such a row
when there is none. -/
def set_balance_delta (bs : List account_balance_object) (owner : account_id_type)
    (a : asset_id_type) (delta : share_type) : List account_balance_object :=
  match bs with
  | [] => [{ owner := owner, asset_type := a, balance := delta }]
  | b :: rest =>
    if b.owner == owner && b.asset_type == a then
      { b with balance := b.balance + delta } :: rest
    else b :: set_balance_delta rest owner a delta

/-- Modelled from the spec: `adjust_balance(account, amount_delta)` of the
balance ledger. The balance of `owner` in the asset of `delta` changes by
`delta.amount`; a change that would leave the balance negative is an error. -/
def adjust_balance (d : database) (owner : account_id_type) (delta : asset) :
    Except evaluation_error database :=
  if d.get_balance_amount owner delta.asset_id + delta.amount < 0 then
    .error .insufficient_balance
  else
    .ok { d with balances := set_balance_delta d.balances owner delta.asset_id delta.amount }

end database

/-! ## Create -/

namespace withdraw_permission_create_evaluator

/-- The function `withdraw_permission_create_evaluator::do_evaluate`. -/
def do_evaluate (d : database) (op : withdraw_permission_create_operation) :
    Except evaluation_error withdraw_permission_id_type := do
  FC_ASSERT (d.find_account op.withdraw_from_account).isSome
  FC_ASSERT (d.find_account op.authorized_account).isSome
  FC_ASSERT (d.find_asset op.withdrawal_limit.asset_id).isSome
  FC_ASSERT (decide (op.period_start_time > d.head_block_time))
  FC_ASSERT (decide (time_point_sec_add op.period_start_time
    (uint32_mul op.periods_until_expiration op.withdrawal_period_sec) > d.head_block_time))
  FC_ASSERT (decide (op.withdrawal_period_sec ≥ d.block_interval))
  return d.get_next_id

/-- The function `withdraw_permission_create_evaluator::do_apply`. The fields the
initializer does not assign keep their default value: `claimed_this_period`
starts at zero. -/
def do_apply (d : database) (op : withdraw_permission_create_operation) :
    Except evaluation_error (withdraw_permission_id_type × database) :=
  .ok (d.create
    { withdraw_from_account := op.withdraw_from_account
      authorized_account := op.authorized_account
      withdrawal_limit := op.withdrawal_limit
      withdrawal_period_sec := op.withdrawal_period_sec
      expiration := time_point_sec_add op.period_start_time
        (uint32_mul op.periods_until_expiration op.withdrawal_period_sec)
      period_start_time := op.period_start_time
      claimed_this_period := 0 })

end withdraw_permission_create_evaluator

/-! ## Claim -/

/-- Modelled from the spec: the comparison `a <= b` of two assets, as in
"the requested amount is ≤ the amount still available in the current period":
the amounts are compared. -/
def asset.le (a b : asset) : Bool := decide (a.amount ≤ b.amount)

/-- Modelled from the spec: the comparison `a >= b` of two assets, as in "the
payer's balance in that asset is ≥ the requested amount". -/
def asset.ge (a b : asset) : Bool := decide (a.amount ≥ b.amount)

/-- The number of whole periods between `period_start_time` and the chain
time `now`: `(now - p.period_start_time).to_seconds() / p.withdrawal_period_sec`,
a signed 64-bit division that truncates towards zero. -/
def withdraw_permission_object.elapsed_periods (p : withdraw_permission_object) (now : Nat) : Int :=
  Int.tdiv (time_point_sec_diff now p.period_start_time) (p.withdrawal_period_sec : Int)

/-- Modelled from the spec: `withdraw_permission_object::available_this_period`,
whose body is in `withdraw_permission_object.hpp`, not part of the sources at
hand. The spec has it computed "by the same period-rollover logic used in
apply, without mutating": the limit minus `claimed_this_period` "evaluated
after conceptually applying rollover", that is with the counter as it stands
when the number of elapsed periods is zero and reset otherwise. The spec words
the reset for a positive number of periods; for a negative one, which it does
not mention, the model follows the `else` branch of apply. Like apply, it
divides by `withdrawal_period_sec`. -/
def withdraw_permission_object.available_this_period (p : withdraw_permission_object)
    (current_time : Nat) : Except evaluation_error asset :=
  if p.withdrawal_period_sec = 0 then .error .divide_by_zero
  else
    let periods := p.elapsed_periods current_time
    let claimed : share_type := if periods = 0 then p.claimed_this_period else 0
    .ok { amount := p.withdrawal_limit.amount - claimed, asset_id := p.withdrawal_limit.asset_id }

namespace withdraw_permission_claim_evaluator

/-- The function `withdraw_permission_claim_evaluator::do_evaluate`. In the
whitelist block the source binds `from` to `op.withdraw_to_account(d)` and `to`
to `permit.authorized_account(d)`; the embedding does the same. -/
def do_evaluate (d : database) (op : withdraw_permission_claim_operation) :
    Except evaluation_error Unit := do
  let permit ← d.get_withdraw_permission op.withdraw_permission
  FC_ASSERT (decide (permit.expiration > d.head_block_time))
  FC_ASSERT (permit.authorized_account == op.withdraw_to_account)
  FC_ASSERT (permit.withdraw_from_account == op.withdraw_from_account)
  let available ← permit.available_this_period d.head_block_time
  FC_ASSERT (op.amount_to_withdraw.le available)
  FC_ASSERT ((d.get_balance op.withdraw_from_account op.amount_to_withdraw.asset_id).ge
    op.amount_to_withdraw)
  let _asset ← d.get_asset op.amount_to_withdraw.asset_id
  if _asset.is_transfer_restricted then
    FC_ASSERT (_asset.issuer == permit.authorized_account
      || _asset.issuer == permit.withdraw_from_account)
  if _asset.enforce_white_list then
    let from_account ← d.get_account op.withdraw_to_account
    let to_account ← d.get_account permit.authorized_account
    FC_ASSERT (to_account.is_authorized_asset op.amount_to_withdraw.asset_id)
    FC_ASSERT (from_account.is_authorized_asset op.amount_to_withdraw.asset_id)
  return ()

/-- The mutator that `do_apply` hands to `d.modify`: `periods` is computed from
the old `period_start_time`; `period_start_time += periods * withdrawal_period_sec`
converts the signed product to `uint32_t` and adds it with 32-bit wrap-around;
the counter accumulates when `periods == 0` and is overwritten otherwise. -/
def claim_mutator (now : Nat) (amount : share_type) (p : withdraw_permission_object) :
    Except evaluation_error withdraw_permission_object :=
  if p.withdrawal_period_sec = 0 then .error .divide_by_zero
  else
    let periods := p.elapsed_periods now
    .ok { p with
      period_start_time := time_point_sec_add p.period_start_time
        (to_uint32 (periods * (p.withdrawal_period_sec : Int)))
      claimed_this_period :=
        if periods = 0 then p.claimed_this_period + amount else amount }

/-- The function `withdraw_permission_claim_evaluator::do_apply`. -/
def do_apply (d : database) (op : withdraw_permission_claim_operation) :
    Except evaluation_error database := do
  let permit ← d.get_withdraw_permission op.withdraw_permission
  let p ← claim_mutator d.head_block_time op.amount_to_withdraw.amount permit
  let d1 := d.modify op.withdraw_permission p
  let d2 ← d1.adjust_balance op.withdraw_from_account op.amount_to_withdraw.neg
  let d3 ← d2.adjust_balance op.withdraw_to_account op.amount_to_withdraw
  return d3

end withdraw_permission_claim_evaluator

/-! ## Update -/

namespace withdraw_permission_update_evaluator

/-- The function `withdraw_permission_update_evaluator::do_evaluate`. -/
def do_evaluate (d : database) (op : withdraw_permission_update_operation) :
    Except evaluation_error Unit := do
  let permit ← d.get_withdraw_permission op.permission_to_update
  FC_ASSERT (permit.authorized_account == op.authorized_account)
  FC_ASSERT (permit.withdraw_from_account == op.withdraw_from_account)
  FC_ASSERT (d.find_asset op.withdrawal_limit.asset_id).isSome
  FC_ASSERT (decide (op.period_start_time ≥ d.head_block_time))
  FC_ASSERT (decide (time_point_sec_add op.period_start_time
    (uint32_mul op.periods_until_expiration op.withdrawal_period_sec) > d.head_block_time))
  FC_ASSERT (decide (op.withdrawal_period_sec ≥ d.block_interval))
  return ()

/-- The function `withdraw_permission_update_evaluator::do_apply`. -/
def do_apply (d : database) (op : withdraw_permission_update_operation) :
    Except evaluation_error database := do
  let permit ← d.get_withdraw_permission op.permission_to_update
  return d.modify op.permission_to_update
    { permit with
      period_start_time := op.period_start_time
      expiration := time_point_sec_add op.period_start_time
        (uint32_mul op.periods_until_expiration op.withdrawal_period_sec)
      withdrawal_limit := op.withdrawal_limit
      withdrawal_period_sec := op.withdrawal_period_sec }

end withdraw_permission_update_evaluator

/-! ## Delete -/

namespace withdraw_permission_delete_evaluator

/-- The function `withdraw_permission_delete_evaluator::do_evaluate`. -/
def do_evaluate (d : database) (op : withdraw_permission_delete_operation) :
    Except evaluation_error Unit := do
  let permit ← d.get_withdraw_permission op.withdrawal_permission
  FC_ASSERT (permit.authorized_account == op.authorized_account)
  FC_ASSERT (permit.withdraw_from_account == op.withdraw_from_account)
  return ()

/-- The function `withdraw_permission_delete_evaluator::do_apply`. -/
def do_apply (d : database) (op : withdraw_permission_delete_operation) :
    Except evaluation_error database := do
  let _ ← d.get_withdraw_permission op.withdrawal_permission
  return d.remove op.withdrawal_permission

end withdraw_permission_delete_evaluator

/-! ## Processing operations -/

/-- The four withdraw permission operations. -/
inductive operation where
  | withdraw_permission_create (op : withdraw_permission_create_operation)
  | withdraw_permission_claim (op : withdraw_permission_claim_operation)
  | withdraw_permission_update (op : withdraw_permission_update_operation)
  | withdraw_permission_delete (op : withdraw_permission_delete_operation)
deriving DecidableEq, Repr

/-- Modelled from the spec: the control flow "evaluate (pure validation, no
mutation), then apply (mutation)" of the dispatch layer, which is not part of
the sources at hand: apply runs on the same database and operation, and only
after evaluate has succeeded. -/
def apply_operation (d : database) (o : operation) : Except evaluation_error database :=
  match o with
  | .withdraw_permission_create op => do
    let _ ← withdraw_permission_create_evaluator.do_evaluate d op
    let r ← withdraw_permission_create_evaluator.do_apply d op
    return r.2
  | .withdraw_permission_claim op => do
    withdraw_permission_claim_evaluator.do_evaluate d op
    withdraw_permission_claim_evaluator.do_apply d op
  | .withdraw_permission_update op => do
    withdraw_permission_update_evaluator.do_evaluate d op
    withdraw_permission_update_evaluator.do_apply d op
  | .withdraw_permission_delete op => do
    withdraw_permission_delete_evaluator.do_evaluate d op
    withdraw_permission_delete_evaluator.do_apply d op

/-- The evaluate phase of an operation, whichever of the four it is. -/
def operation.do_evaluate (d : database) (o : operation) : Except evaluation_error Unit :=
  match o with
  | .withdraw_permission_create op => do
    let _ ← withdraw_permission_create_evaluator.do_evaluate d op
    return ()
  | .withdraw_permission_claim op => withdraw_permission_claim_evaluator.do_evaluate d op
  | .withdraw_permission_update op => withdraw_permission_update_evaluator.do_evaluate d op
  | .withdraw_permission_delete op => withdraw_permission_delete_evaluator.do_evaluate d op

/-- The apply phase of an operation, whichever of the four it is, with the
successor database as its result. -/
def operation.do_apply (d : database) (o : operation) : Except evaluation_error database :=
  match o with
  | .withdraw_permission_create op => do
    let r ← withdraw_permission_create_evaluator.do_apply d op
    return r.2
  | .withdraw_permission_claim op => withdraw_permission_claim_evaluator.do_apply d op
  | .withdraw_permission_update op => withdraw_permission_update_evaluator.do_apply d op
  | .withdraw_permission_delete op => withdraw_permission_delete_evaluator.do_apply d op

/-- Modelled from the spec: the state after an operation has been submitted:
the successor database when the operation went through, the database as it
was when the operation was rejected ("reject the transaction, no state
changed"). -/
def push_operation (d : database) (o : operation) : database :=
  match apply_operation d o with
  | .ok d2 => d2
  | .error _ => d

/-- The database with the chain time moved to `t`. -/
def database.at_time (d : database) (t : Nat) : database := { d with head_block_time := t }

/-- Applies a sequence of operations, each at its own chain time; stops at the
first operation that does not go through. -/
def apply_operations (d : database) (steps : List (Nat × operation)) :
    Except evaluation_error database :=
  match steps with
  | [] => .ok d
  | (t, o) :: rest => do
    let d2 ← apply_operation (d.at_time t) o
    apply_operations d2 rest

/-- The permission an operation claims from, if it is a claim. -/
def operation.claimed_permission (o : operation) : List withdraw_permission_id_type :=
  match o with
  | .withdraw_permission_claim op => [op.withdraw_permission]
  | _ => []

/-- The permissions a sequence of operations claims from. -/
def claimed_permissions (steps : List (Nat × operation)) : List withdraw_permission_id_type :=
  match steps with
  | [] => []
  | s :: rest => s.2.claimed_permission ++ claimed_permissions rest

/-- How an operation changes the list `ids` of the permissions whose limit an
update has set below their counter: a claim takes its permission off the list;
an update puts its permission on the list when the new
`withdrawal_limit.amount` is below the stored `claimed_this_period`, and takes
it off otherwise; create and delete leave the list as it is. -/
def operation.lowered (d : database) (o : operation)
    (ids : List withdraw_permission_id_type) : List withdraw_permission_id_type :=
  match o with
  | .withdraw_permission_claim op => ids.filter fun i => i != op.withdraw_permission
  | .withdraw_permission_update op =>
    match d.find_withdraw_permission op.permission_to_update with
    | some p =>
      if op.withdrawal_limit.amount < p.claimed_this_period then op.permission_to_update :: ids
      else ids.filter fun i => i != op.permission_to_update
    | none => ids
  | _ => ids

/-- The list `ids` carried through a sequence of operations with
`operation.lowered`, each operation seeing the database it is applied to. -/
def lowered_from (d : database) (ids : List withdraw_permission_id_type)
    (steps : List (Nat × operation)) : List withdraw_permission_id_type :=
  match steps with
  | [] => ids
  | (t, o) :: rest =>
    match apply_operation (d.at_time t) o with
    | .ok d2 => lowered_from d2 (o.lowered (d.at_time t) ids) rest
    | .error _ => ids

/-- The permissions for which the last claim or update in a sequence of
operations was an update that set `withdrawal_limit.amount` below the stored
`claimed_this_period`. -/
def lowered_permissions (d : database) (steps : List (Nat × operation)) :
    List withdraw_permission_id_type :=
  lowered_from d [] steps

/-- Every permission among `ids` and not among `lowered` that is still stored
has `claimed_this_period ≤ withdrawal_limit.amount`, and its identifier has
been allocated. -/
def within_limit_unless (d : database) (ids lowered : List withdraw_permission_id_type) : Prop :=
  ∀ id ∈ ids, id ∉ lowered → id < d.withdraw_permissions.length ∧
    ∀ p, d.find_withdraw_permission id = some p →
      p.claimed_this_period ≤ p.withdrawal_limit.amount

/-- Every permission among `lowered` that is still stored has
`withdrawal_limit.amount < claimed_this_period`, and its identifier has been
allocated. -/
def exceeds_limit (d : database) (lowered : List withdraw_permission_id_type) : Prop :=
  ∀ id ∈ lowered, id < d.withdraw_permissions.length ∧
    ∀ p, d.find_withdraw_permission id = some p →
      p.withdrawal_limit.amount < p.claimed_this_period

/-- The balance that a list of ledger rows gives `owner` in asset `a`: that of
the first row of that owner and asset, zero when there is none. It is what
`get_balance_amount` reads off the ledger. -/
def ledger_balance (bs : List account_balance_object) (owner : account_id_type)
    (a : asset_id_type) : share_type :=
  match bs.find? (fun b => b.owner == owner && b.asset_type == a) with
  | some b => b.balance
  | none => 0

/-- The total of asset `a` that the accounts `accts` hold. -/
def total_supply (d : database) (accts : List account_id_type) (a : asset_id_type) : share_type :=
  (accts.map fun acct => d.get_balance_amount acct a).sum

/-! ## Operation history -/

abbrev operation_history_id_type := Nat
abbrev account_transaction_history_id_type := Nat

/-- Modelled from the spec: the result payload of an applied operation: nothing,
or the identifier of the object that the operation created. -/
inductive operation_result where
  | void_result
  | object_id (id : Nat)
deriving DecidableEq, Repr

/-- The class `operation_history_object`: an applied operation, its result and
where in the chain it occurred. -/
structure operation_history_object where
  op : operation
  result : operation_result
  block_num : Nat
  trx_in_block : Nat
  op_in_trx : Nat
  virtual_op : Nat
deriving DecidableEq, Repr

/-- The class `account_transaction_history_object`: a node of an account's
linked list of operation history records. `next` refers to the node that was
the account's most recent one before; the null reference of the first node is
`none`. -/
structure account_transaction_history_object where
  operation_id : operation_history_id_type
  next : Option account_transaction_history_id_type
deriving DecidableEq, Repr

/-- Modelled from the spec: the persisted history: the table of operation
history records, the table of account history nodes, both addressed by
sequence number, and for every account the reference to its most recent node
(`none` while the account has no history). -/
structure history_store where
  operation_histories : List operation_history_object
  account_transaction_histories : List account_transaction_history_object
  most_recent_op : account_id_type → Option account_transaction_history_id_type

namespace history_store

/-- The history store before anything has been recorded. -/
def empty : history_store :=
  { operation_histories := []
    account_transaction_histories := []
    most_recent_op := fun _ => none }

/-- Modelled from the spec: `record(op, result, block_num, trx_in_block,
op_in_trx, virtual_op)`, which "allocates the next sequence ID in this record's
namespace and stores it"; it never fails. -/
def record (h : history_store) (r : operation_history_object) :
    operation_history_id_type × history_store :=
  (h.operation_histories.length,
    { h with operation_histories := h.operation_histories ++ [r] })

/-- Modelled from the spec: `append_to_account(account, record_id)`, which
"reads the account's current most-recent-node reference, creates a new
AccountHistoryNode with `next` = that reference and `operation_id` = record_id,
writes the new node, and updates the account's most-recent-node reference to
point to it". -/
def append_to_account (h : history_store) (account : account_id_type)
    (record_id : operation_history_id_type) : history_store :=
  { h with
    account_transaction_histories := h.account_transaction_histories ++
      [{ operation_id := record_id, next := h.most_recent_op account }]
    most_recent_op := fun a =>
      if a = account then some h.account_transaction_histories.length
      else h.most_recent_op a }

/-- Appends a sequence of (account, record) pairs, in order. -/
def append_all (h : history_store) (appends : List (account_id_type × operation_history_id_type)) :
    history_store :=
  appends.foldl (fun s x => s.append_to_account x.1 x.2) h

/-- The record references that a sequence of appends adds for `account`,
oldest first. -/
def appended_for (appends : List (account_id_type × operation_history_id_type))
    (account : account_id_type) : List operation_history_id_type :=
  (appends.filter fun x => x.1 == account).map fun x => x.2

/-- Modelled from the spec: the traversal "repeatedly follow `next` references
… until the sentinel is reached; each step is one record lookup", from the
reference `cur`, with at most `fuel` lookups. The result is `none` when the
fuel runs out before the sentinel or when a reference resolves to no node. -/
def history_from (nodes : List account_transaction_history_object) (fuel : Nat)
    (cur : Option account_transaction_history_id_type) : Option (List operation_history_id_type) :=
  match cur with
  | none => some []
  | some i =>
    match fuel with
    | 0 => none
    | fuel + 1 =>
      match nodes[i]? with
      | none => none
      | some n => (history_from nodes fuel n.next).map (n.operation_id :: ·)

/-- Modelled from the spec: `history(account)`, the record references of the
account, newest first: the traversal from the account's most recent node, with
as many lookups as there are nodes in the table. -/
def history (h : history_store) (account : account_id_type) :
    Option (List operation_history_id_type) :=
  history_from h.account_transaction_histories h.account_transaction_histories.length
    (h.most_recent_op account)

/-- The records behind a list of record references. -/
def records (h : history_store) (ids : List operation_history_id_type) :
    List (Option operation_history_object) :=
  ids.map fun i => h.operation_histories[i]?

end history_store

/-! ## Sample states and operations -/

/-- A chain at time 500 with block interval 5: account 0 (the payer, holding
1000 of asset 0), account 1 (the claimant), asset 0 without restrictions, and
no withdraw permission yet. -/
def sample_db : database :=
  { head_block_time := 500
    block_interval := 5
    accounts := [{ authorized_assets := [] }, { authorized_assets := [] }]
    assets := [{ issuer := 0, is_transfer_restricted := false, enforce_white_list := false }]
    balances := [{ owner := 0, asset_type := 0, balance := 1000 }]
    withdraw_permissions := [] }

/-- Account 0 lets account 1 withdraw up to 100 of asset 0 in each period of
100 seconds, for two periods starting at time 1000. -/
def sample_create : withdraw_permission_create_operation :=
  { withdraw_from_account := 0
    authorized_account := 1
    withdrawal_limit := { amount := 100, asset_id := 0 }
    withdrawal_period_sec := 100
    periods_until_expiration := 2
    period_start_time := 1000 }

/-- The permission that `sample_create` stores. -/
def sample_permit : withdraw_permission_object :=
  { withdraw_from_account := 0
    authorized_account := 1
    withdrawal_limit := { amount := 100, asset_id := 0 }
    withdrawal_period_sec := 100
    period_start_time := 1000
    expiration := 1200
    claimed_this_period := 0 }

/-- The chain of `sample_db` at time `t`, holding `sample_permit` under
identifier 0. -/
def sample_permit_db (t : Nat) : database :=
  { sample_db with head_block_time := t, withdraw_permissions := [some sample_permit] }

/-- Account 1 claims `a` of asset 0 from account 0 under permission 0. -/
def sample_claim (a : share_type) : withdraw_permission_claim_operation :=
  { withdraw_permission := 0
    withdraw_from_account := 0
    withdraw_to_account := 1
    amount_to_withdraw := { amount := a, asset_id := 0 } }

/-- The chain of `sample_permit_db 1100` after `sample_claim 60` has been
applied: the period has rolled over once. -/
def sample_rolled_db : database :=
  { sample_db with
    head_block_time := 1100
    balances := [{ owner := 0, asset_type := 0, balance := 940 },
      { owner := 1, asset_type := 0, balance := 60 }]
    withdraw_permissions :=
      [some { sample_permit with period_start_time := 1100, claimed_this_period := 60 }] }

/-- An update of permission 0 that lowers the limit to 10 and keeps the
period; its `period_start_time` is 1000. -/
def sample_update : withdraw_permission_update_operation :=
  { withdraw_from_account := 0
    authorized_account := 1
    permission_to_update := 0
    withdrawal_limit := { amount := 10, asset_id := 0 }
    withdrawal_period_sec := 100
    period_start_time := 1000
    periods_until_expiration := 2 }

/-- Create the permission at time 500, claim 40 at time 1000, then lower the
limit to 10 at time 1000. -/
def sample_lowered_steps : List (Nat × operation) :=
  [(500, .withdraw_permission_create sample_create),
   (1000, .withdraw_permission_claim (sample_claim 40)),
   (1000, .withdraw_permission_update sample_update)]

/-- The permission as `sample_lowered_steps` leaves it. -/
def sample_lowered_permit : withdraw_permission_object :=
  { sample_permit with
    withdrawal_limit := { amount := 10, asset_id := 0 }
    claimed_this_period := 40 }

/-- The chain as `sample_lowered_steps` leaves it. -/
def sample_lowered_db : database :=
  { sample_db with
    head_block_time := 1000
    balances := [{ owner := 0, asset_type := 0, balance := 960 },
      { owner := 1, asset_type := 0, balance := 40 }]
    withdraw_permissions := [some sample_lowered_permit] }

/-- Create the permission at time 500, raise its limit to 200 at time 500, then
claim 150 at time 1000. -/
def sample_raised_steps : List (Nat × operation) :=
  [(500, .withdraw_permission_create sample_create),
   (500, .withdraw_permission_update
     { sample_update with withdrawal_limit := { amount := 200, asset_id := 0 } }),
   (1000, .withdraw_permission_claim (sample_claim 150))]

/-- The permission as `sample_raised_steps` leaves it. -/
def sample_raised_permit : withdraw_permission_object :=
  { sample_permit with
    withdrawal_limit := { amount := 200, asset_id := 0 }
    claimed_this_period := 150 }

/-- The chain as `sample_raised_steps` leaves it. -/
def sample_raised_db : database :=
  { sample_db with
    head_block_time := 1000
    balances := [{ owner := 0, asset_type := 0, balance := 850 },
      { owner := 1, asset_type := 0, balance := 150 }]
    withdraw_permissions := [some sample_raised_permit] }

/-- A chain at time 1000 whose asset 0 enforces a whitelist: the claimant
(account 1) is authorized for asset 0, the payer (account 0) is not.
Permission 0 is `sample_permit`. -/
def whitelist_db : database :=
  { head_block_time := 1000
    block_interval := 5
    accounts := [{ authorized_assets := [] }, { authorized_assets := [0] }]
    assets := [{ issuer := 1, is_transfer_restricted := false, enforce_white_list := true }]
    balances := [{ owner := 0, asset_type := 0, balance := 1000 }]
    withdraw_permissions := [some sample_permit] }

/-- The create operation of Scenario A at chain time `now`: a limit of 100 per
period of 3600 seconds, for two periods starting at `now + 10`. -/
def scenario_create (now : Nat) : withdraw_permission_create_operation :=
  { withdraw_from_account := 0
    authorized_account := 1
    withdrawal_limit := { amount := 100, asset_id := 0 }
    withdrawal_period_sec := 3600
    periods_until_expiration := 2
    period_start_time := now + 10 }

/-- The permission of Scenario A, created at chain time `now`, with the period
start and the counter it has at a later point of the scenario. -/
def scenario_permit (now start : Nat) (claimed : share_type) : withdraw_permission_object :=
  { withdraw_from_account := 0
    authorized_account := 1
    withdrawal_limit := { amount := 100, asset_id := 0 }
    withdrawal_period_sec := 3600
    period_start_time := start
    expiration := now + 10 + 2 * 3600
    claimed_this_period := claimed }

/-- The chain of Scenario A at chain time `t`: the accounts and the asset of
`sample_db`, block interval 5, and the given ledger and permission table. -/
def scenario_db (t : Nat) (balances : List account_balance_object)
    (permits : List (Option withdraw_permission_object)) : database :=
  { head_block_time := t
    block_interval := 5
    accounts := [{ authorized_assets := [] }, { authorized_assets := [] }]
    assets := [{ issuer := 0, is_transfer_restricted := false, enforce_white_list := false }]
    balances := balances
    withdraw_permissions := permits }

/-- A create operation whose expiration does not fit in 32 bits:
`1000 + 42949673 * 100 = 4294968300`, which is `2 ^ 32 + 1004`. -/
def overflow_create : withdraw_permission_create_operation :=
  { withdraw_from_account := 0
    authorized_account := 1
    withdrawal_limit := { amount := 100, asset_id := 0 }
    withdrawal_period_sec := 100
    periods_until_expiration := 42949673
    period_start_time := 1000 }

/-- The chain that `overflow_create` leaves when applied to `sample_db`: the
stored expiration is 1004. -/
def overflow_db : database :=
  { sample_db with
    withdraw_permissions := [some { sample_permit with expiration := 1004 }] }

/-- An update of permission 0 whose expiration does not fit in 32 bits:
`1000 + 42949673 * 100 = 4294968300`, which is `2 ^ 32 + 1004`. Everything
else is as `sample_permit` has it. -/
def overflow_update : withdraw_permission_update_operation :=
  { withdraw_from_account := 0
    authorized_account := 1
    permission_to_update := 0
    withdrawal_limit := { amount := 100, asset_id := 0 }
    withdrawal_period_sec := 100
    period_start_time := 1000
    periods_until_expiration := 42949673 }

/-- The chain that `overflow_update` leaves when applied to
`sample_permit_db 1000`: the stored expiration is 1004. -/
def overflow_update_db : database :=
  { sample_db with
    head_block_time := 1000
    withdraw_permissions := [some { sample_permit with expiration := 1004 }] }

/-- A create operation whose exact expiration `1000 + 1 * 4294966396` is
`2 ^ 32 + 100`: it is far after any chain time, and reduced modulo `2 ^ 32` it
is 100. -/
def wrapping_create : withdraw_permission_create_operation :=
  { withdraw_from_account := 0
    authorized_account := 1
    withdrawal_limit := { amount := 100, asset_id := 0 }
    withdrawal_period_sec := 4294966396
    periods_until_expiration := 1
    period_start_time := 1000 }

/-- An update of permission 0 with the period start, period length and number
of periods of `wrapping_create`. -/
def wrapping_update : withdraw_permission_update_operation :=
  { withdraw_from_account := 0
    authorized_account := 1
    permission_to_update := 0
    withdrawal_limit := { amount := 100, asset_id := 0 }
    withdrawal_period_sec := 4294966396
    period_start_time := 1000
    periods_until_expiration := 1 }

/-- The history record of an operation applied in block `block`. -/
def sample_record (o : operation) (result : operation_result) (block : Nat) :
    operation_history_object :=
  { op := o, result := result, block_num := block, trx_in_block := 0, op_in_trx := 0,
    virtual_op := 0 }

/-- First record of Scenario C: the create, in block 1. -/
def sample_op1 : operation_history_object :=
  sample_record (.withdraw_permission_create sample_create) (.object_id 0) 1

/-- Second record of Scenario C: a claim of 40, in block 2. -/
def sample_op2 : operation_history_object :=
  sample_record (.withdraw_permission_claim (sample_claim 40)) .void_result 2

/-- Third record of Scenario C: a claim of 60, in block 3. -/
def sample_op3 : operation_history_object :=
  sample_record (.withdraw_permission_claim (sample_claim 60)) .void_result 3

/-- The history store of Scenario C: the three records are recorded in block
order and each is appended to the chain of account 0. -/
def sample_history : history_store :=
  let r1 := history_store.empty.record sample_op1
  let h1 := r1.2.append_to_account 0 r1.1
  let r2 := h1.record sample_op2
  let h2 := r2.2.append_to_account 0 r2.1
  let r3 := h2.record sample_op3
  r3.2.append_to_account 0 r3.1

/-! ## Auxiliary lemmas -/

theorem FC_ASSERT_eq_ok (c : Bool) (u : Unit) : FC_ASSERT c = .ok u ↔ c = true := by
  cases c <;> simp [FC_ASSERT]

theorem FC_ASSERT_bind_eq_ok {α : Type} (c : Bool) (f : Unit → Except evaluation_error α) (r : α) :
    (FC_ASSERT c >>= f) = .ok r ↔ c = true ∧ f () = .ok r := by
  cases c <;> simp [FC_ASSERT, bind, Except.bind]

theorem except_bind_eq_ok {α β : Type} (x : Except evaluation_error α)
    (f : α → Except evaluation_error β) (r : β) :
    (x >>= f) = .ok r ↔ ∃ a, x = .ok a ∧ f a = .ok r := by
  cases x <;> simp [bind, Except.bind]

theorem except_ok_or_error {α : Type} (x : Except evaluation_error α) :
    (∃ a, x = .ok a) ∨ (∃ e, x = .error e) := by
  cases x with
  | ok a => exact Or.inl ⟨a, rfl⟩
  | error e => exact Or.inr ⟨e, rfl⟩

/-- Without overflow the 32-bit sum `t + n * s` is the exact sum. -/
theorem time_point_sec_add_exact (t n s : Nat) (h : t + n * s < 2 ^ 32) :
    time_point_sec_add t (uint32_mul n s) = t + n * s := by
  unfold time_point_sec_add uint32_mul
  have h1 : n * s < 2 ^ 32 := by omega
  rw [Nat.mod_eq_of_lt h1, Nat.mod_eq_of_lt h]

/-- The expiration that the evaluators compute, a 32-bit sum with a 32-bit
product, is the exact sum reduced modulo `2 ^ 32`. -/
theorem time_point_sec_add_uint32_mul (t n s : Nat) :
    time_point_sec_add t (uint32_mul n s) = (t + n * s) % 2 ^ 32 := by
  unfold time_point_sec_add uint32_mul
  exact Nat.add_mod_mod _ _ _

theorem mod_two_pow_eq_self_iff (x : Nat) : x % 2 ^ 32 = x ↔ x < 2 ^ 32 := by
  constructor
  · intro h
    rw [← h]
    exact Nat.mod_lt _ (by decide)
  · exact Nat.mod_eq_of_lt

theorem to_uint32_natCast (n : Nat) : to_uint32 (n : Int) = n % 2 ^ 32 := by
  unfold to_uint32
  omega

theorem tdiv_nonpos_of_nonpos (x y : Int) (hx : x ≤ 0) (hy : 0 ≤ y) : Int.tdiv x y ≤ 0 := by
  have h : Int.tdiv x y = -(Int.tdiv (-x) y) := by rw [Int.neg_tdiv, Int.neg_neg]
  rw [h]
  have := Int.tdiv_nonneg (a := -x) (b := y) (by omega) hy
  omega

/-- At a chain time inside the `j`-th period after `period_start_time`, the
number of elapsed periods is `j`. -/
theorem elapsed_periods_of_window (p : withdraw_permission_object) (t j : Nat)
    (h1 : p.period_start_time + j * p.withdrawal_period_sec ≤ t)
    (h2 : t < p.period_start_time + j * p.withdrawal_period_sec + p.withdrawal_period_sec) :
    p.elapsed_periods t = (j : Int) := by
  unfold withdraw_permission_object.elapsed_periods time_point_sec_diff
  have hsub : (t : Int) - (p.period_start_time : Int) = ((t - p.period_start_time : Nat) : Int) := by
    omega
  rw [hsub, Int.tdiv_eq_ediv (Int.natCast_nonneg _) (Int.natCast_nonneg _)]
  norm_cast
  apply Nat.div_eq_of_lt_le
  · omega
  · rw [Nat.succ_mul]; omega

/-- A positive number `k` of elapsed periods means that the chain time is at
least `k` whole periods after `period_start_time`. -/
theorem elapsed_periods_pos (p : withdraw_permission_object) (t k : Nat) (hk : 0 < k)
    (hq : p.elapsed_periods t = (k : Int)) :
    p.period_start_time + k * p.withdrawal_period_sec ≤ t := by
  unfold withdraw_permission_object.elapsed_periods time_point_sec_diff at hq
  by_cases hle : p.period_start_time ≤ t
  · have hsub : (t : Int) - (p.period_start_time : Int)
        = ((t - p.period_start_time : Nat) : Int) := by omega
    rw [hsub, Int.tdiv_eq_ediv (Int.natCast_nonneg _) (Int.natCast_nonneg _)] at hq
    norm_cast at hq
    have := Nat.div_mul_le_self (t - p.period_start_time) p.withdrawal_period_sec
    rw [hq] at this
    omega
  · exfalso
    have h0 := tdiv_nonpos_of_nonpos ((t : Int) - (p.period_start_time : Int))
      (p.withdrawal_period_sec : Int) (by omega) (Int.natCast_nonneg _)
    rw [hq] at h0
    omega

/-! ### The object store -/

theorem get_withdraw_permission_eq_ok (d : database) (id : withdraw_permission_id_type)
    (p : withdraw_permission_object) :
    d.get_withdraw_permission id = .ok p ↔ d.find_withdraw_permission id = some p := by
  unfold database.get_withdraw_permission
  cases d.find_withdraw_permission id <;> simp

theorem find_withdraw_permission_congr (d d2 : database)
    (h : d2.withdraw_permissions = d.withdraw_permissions) (id : withdraw_permission_id_type) :
    d2.find_withdraw_permission id = d.find_withdraw_permission id := by
  simp [database.find_withdraw_permission, h]

theorem find_withdraw_permission_lt (d : database) (id : withdraw_permission_id_type)
    (p : withdraw_permission_object) (h : d.find_withdraw_permission id = some p) :
    id < d.withdraw_permissions.length := by
  by_contra hn
  simp [database.find_withdraw_permission, List.getElem?_eq_none (Nat.le_of_not_lt hn)] at h

theorem find_withdraw_permission_next_id (d : database) :
    d.find_withdraw_permission d.get_next_id = none := by
  simp [database.find_withdraw_permission, database.get_next_id]

theorem find_withdraw_permission_create_new (d : database) (p : withdraw_permission_object) :
    (d.create p).2.find_withdraw_permission d.get_next_id = some p := by
  simp [database.create, database.find_withdraw_permission, database.get_next_id]

theorem find_withdraw_permission_create_other (d : database) (p : withdraw_permission_object)
    (id : withdraw_permission_id_type) (h : id ≠ d.get_next_id) :
    (d.create p).2.find_withdraw_permission id = d.find_withdraw_permission id := by
  simp only [database.create, database.find_withdraw_permission, database.get_next_id] at *
  rcases Nat.lt_or_gt_of_ne h with h1 | h1
  · rw [List.getElem?_append_left h1]
  · rw [List.getElem?_eq_none (l := d.withdraw_permissions) (by omega),
      List.getElem?_eq_none (by simp; omega)]

theorem find_withdraw_permission_modify_same (d : database) (id : withdraw_permission_id_type)
    (p : withdraw_permission_object) (h : id < d.withdraw_permissions.length) :
    (d.modify id p).find_withdraw_permission id = some p := by
  simp [database.modify, database.find_withdraw_permission, List.getElem?_set, h]

theorem find_withdraw_permission_modify_other (d : database)
    (id id2 : withdraw_permission_id_type) (p : withdraw_permission_object) (h : id2 ≠ id) :
    (d.modify id p).find_withdraw_permission id2 = d.find_withdraw_permission id2 := by
  simp [database.modify, database.find_withdraw_permission, List.getElem?_set, Ne.symm h]

theorem find_withdraw_permission_remove_same (d : database) (id : withdraw_permission_id_type) :
    (d.remove id).find_withdraw_permission id = none := by
  simp only [database.remove, database.find_withdraw_permission, List.getElem?_set]
  split <;> simp_all

theorem find_withdraw_permission_remove_other (d : database)
    (id id2 : withdraw_permission_id_type) (h : id2 ≠ id) :
    (d.remove id).find_withdraw_permission id2 = d.find_withdraw_permission id2 := by
  simp [database.remove, database.find_withdraw_permission, List.getElem?_set, Ne.symm h]

theorem adjust_balance_eq_ok (d d2 : database) (owner : account_id_type) (delta : asset)
    (h : d.adjust_balance owner delta = .ok d2) :
    d2 = { d with balances :=
      database.set_balance_delta d.balances owner delta.asset_id delta.amount } := by
  unfold database.adjust_balance at h
  split at h
  · cases h
  · exact (Except.ok.inj h).symm

/-! ### The evaluators -/

theorem create_do_evaluate_eq_ok (d : database) (op : withdraw_permission_create_operation)
    (id : withdraw_permission_id_type) :
    withdraw_permission_create_evaluator.do_evaluate d op = .ok id ↔
      ((d.find_account op.withdraw_from_account).isSome = true ∧
       (d.find_account op.authorized_account).isSome = true ∧
       (d.find_asset op.withdrawal_limit.asset_id).isSome = true ∧
       op.period_start_time > d.head_block_time ∧
       time_point_sec_add op.period_start_time
         (uint32_mul op.periods_until_expiration op.withdrawal_period_sec) > d.head_block_time ∧
       op.withdrawal_period_sec ≥ d.block_interval ∧ id = d.get_next_id) := by
  unfold withdraw_permission_create_evaluator.do_evaluate
  simp only [FC_ASSERT_bind_eq_ok, decide_eq_true_eq, pure, Except.pure, Except.ok.injEq]
  constructor
  · rintro ⟨h1, h2, h3, h4, h5, h6, h7⟩
    exact ⟨h1, h2, h3, h4, h5, h6, h7.symm⟩
  · rintro ⟨h1, h2, h3, h4, h5, h6, h7⟩
    exact ⟨h1, h2, h3, h4, h5, h6, h7.symm⟩

theorem available_this_period_eq_ok (p : withdraw_permission_object) (t : Nat) (a : asset) :
    p.available_this_period t = .ok a ↔
      p.withdrawal_period_sec ≠ 0 ∧
      a = { amount := p.withdrawal_limit.amount -
              (if p.elapsed_periods t = 0 then p.claimed_this_period else 0),
            asset_id := p.withdrawal_limit.asset_id } := by
  unfold withdraw_permission_object.available_this_period
  by_cases h : p.withdrawal_period_sec = 0
  · simp [h]
  · simp [h, eq_comm]

/-- What a successful claim evaluation has checked before it looks at the
asset's flags. -/
theorem claim_do_evaluate_ok (d : database) (op : withdraw_permission_claim_operation)
    (h : withdraw_permission_claim_evaluator.do_evaluate d op = .ok ()) :
    ∃ permit, d.find_withdraw_permission op.withdraw_permission = some permit ∧
      permit.expiration > d.head_block_time ∧
      permit.authorized_account = op.withdraw_to_account ∧
      permit.withdraw_from_account = op.withdraw_from_account ∧
      permit.withdrawal_period_sec ≠ 0 ∧
      op.amount_to_withdraw.amount ≤ permit.withdrawal_limit.amount -
        (if permit.elapsed_periods d.head_block_time = 0 then permit.claimed_this_period else 0) ∧
      d.get_balance_amount op.withdraw_from_account op.amount_to_withdraw.asset_id ≥
        op.amount_to_withdraw.amount := by
  unfold withdraw_permission_claim_evaluator.do_evaluate at h
  simp only [except_bind_eq_ok, FC_ASSERT_eq_ok, get_withdraw_permission_eq_ok,
    available_this_period_eq_ok, decide_eq_true_eq, beq_iff_eq, asset.le, asset.ge,
    database.get_balance, exists_const, exists_and_left] at h
  obtain ⟨permit, hfind, hexp, hauth, hfrom, avail, ⟨hper, havail⟩, hle, hbal, -⟩ := h
  subst havail
  exact ⟨permit, hfind, hexp, hauth, hfrom, hper, hle, hbal⟩

theorem claim_mutator_eq_ok (now : Nat) (a : share_type) (p p2 : withdraw_permission_object) :
    withdraw_permission_claim_evaluator.claim_mutator now a p = .ok p2 ↔
      p.withdrawal_period_sec ≠ 0 ∧
      p2 = { p with
        period_start_time := time_point_sec_add p.period_start_time
          (to_uint32 (p.elapsed_periods now * (p.withdrawal_period_sec : Int)))
        claimed_this_period :=
          if p.elapsed_periods now = 0 then p.claimed_this_period + a else a } := by
  unfold withdraw_permission_claim_evaluator.claim_mutator
  by_cases h : p.withdrawal_period_sec = 0
  · simp [h]
  · simp [h, eq_comm]

/-- What a completed claim application has done to the database. -/
theorem claim_do_apply_ok (d d2 : database) (op : withdraw_permission_claim_operation)
    (h : withdraw_permission_claim_evaluator.do_apply d op = .ok d2) :
    ∃ permit p2, d.find_withdraw_permission op.withdraw_permission = some permit ∧
      withdraw_permission_claim_evaluator.claim_mutator d.head_block_time
        op.amount_to_withdraw.amount permit = .ok p2 ∧
      d2.withdraw_permissions = (d.modify op.withdraw_permission p2).withdraw_permissions ∧
      d2.head_block_time = d.head_block_time ∧ d2.block_interval = d.block_interval ∧
      d2.accounts = d.accounts ∧ d2.assets = d.assets := by
  unfold withdraw_permission_claim_evaluator.do_apply at h
  simp only [except_bind_eq_ok, get_withdraw_permission_eq_ok, pure, Except.pure,
    Except.ok.injEq] at h
  obtain ⟨permit, hfind, p2, hmut, d3, h3, d4, h4, rfl⟩ := h
  have e3 := adjust_balance_eq_ok _ _ _ _ h3
  have e4 := adjust_balance_eq_ok _ _ _ _ h4
  subst e3
  subst e4
  exact ⟨permit, p2, hfind, hmut, rfl, rfl, rfl, rfl, rfl⟩

theorem update_do_evaluate_eq_ok (d : database) (op : withdraw_permission_update_operation) :
    withdraw_permission_update_evaluator.do_evaluate d op = .ok () ↔
      ∃ permit, d.find_withdraw_permission op.permission_to_update = some permit ∧
        permit.authorized_account = op.authorized_account ∧
        permit.withdraw_from_account = op.withdraw_from_account ∧
        (d.find_asset op.withdrawal_limit.asset_id).isSome = true ∧
        op.period_start_time ≥ d.head_block_time ∧
        time_point_sec_add op.period_start_time
          (uint32_mul op.periods_until_expiration op.withdrawal_period_sec) > d.head_block_time ∧
        op.withdrawal_period_sec ≥ d.block_interval := by
  unfold withdraw_permission_update_evaluator.do_evaluate
  simp only [except_bind_eq_ok, FC_ASSERT_eq_ok, get_withdraw_permission_eq_ok,
    decide_eq_true_eq, beq_iff_eq, exists_const, exists_and_left, pure, Except.pure, and_true]

/-! ### Sequences of operations -/

/-- A claim that went through leaves the claimed permission within its limit. -/
theorem claim_within_limit (d d2 : database) (op : withdraw_permission_claim_operation)
    (hev : withdraw_permission_claim_evaluator.do_evaluate d op = .ok ())
    (hap : withdraw_permission_claim_evaluator.do_apply d op = .ok d2) :
    ∃ p2, d2.find_withdraw_permission op.withdraw_permission = some p2 ∧
      p2.claimed_this_period ≤ p2.withdrawal_limit.amount ∧
      d2.withdraw_permissions = (d.modify op.withdraw_permission p2).withdraw_permissions := by
  obtain ⟨permit, hfind, -, -, -, -, hle, -⟩ := claim_do_evaluate_ok d op hev
  obtain ⟨permit2, p2, hfind2, hmut, hwp, -⟩ := claim_do_apply_ok d d2 op hap
  rw [hfind] at hfind2
  cases hfind2
  obtain ⟨-, hp2⟩ := (claim_mutator_eq_ok _ _ _ _).mp hmut
  refine ⟨p2, ?_, ?_, hwp⟩
  · rw [find_withdraw_permission_congr _ _ hwp,
      find_withdraw_permission_modify_same _ _ _ (find_withdraw_permission_lt _ _ _ hfind)]
  · subst hp2
    by_cases h0 : permit.elapsed_periods d.head_block_time = 0
    · simp only [h0, if_true] at hle ⊢
      linarith
    · simp only [h0, if_false] at hle ⊢
      linarith

theorem delete_do_evaluate_eq_ok (d : database) (op : withdraw_permission_delete_operation) :
    withdraw_permission_delete_evaluator.do_evaluate d op = .ok () ↔
      ∃ permit, d.find_withdraw_permission op.withdrawal_permission = some permit ∧
        permit.authorized_account = op.authorized_account ∧
        permit.withdraw_from_account = op.withdraw_from_account := by
  unfold withdraw_permission_delete_evaluator.do_evaluate
  simp only [except_bind_eq_ok, FC_ASSERT_eq_ok, get_withdraw_permission_eq_ok,
    beq_iff_eq, exists_const, exists_and_left, pure, Except.pure, and_true]

theorem get_withdraw_permission_of_find (d : database) (id : withdraw_permission_id_type)
    (p : withdraw_permission_object) (h : d.find_withdraw_permission id = some p) :
    d.get_withdraw_permission id = .ok p :=
  (get_withdraw_permission_eq_ok d id p).mpr h

/-- Update apply on a stored permission, as an equation. -/
theorem update_do_apply_of_find (d : database) (op : withdraw_permission_update_operation)
    (permit : withdraw_permission_object)
    (hfind : d.find_withdraw_permission op.permission_to_update = some permit) :
    withdraw_permission_update_evaluator.do_apply d op = .ok (d.modify op.permission_to_update
      { permit with
        period_start_time := op.period_start_time
        expiration := time_point_sec_add op.period_start_time
          (uint32_mul op.periods_until_expiration op.withdrawal_period_sec)
        withdrawal_limit := op.withdrawal_limit
        withdrawal_period_sec := op.withdrawal_period_sec }) := by
  unfold withdraw_permission_update_evaluator.do_apply
  rw [get_withdraw_permission_of_find d _ _ hfind]
  rfl

/-- Delete apply on a stored permission, as an equation. -/
theorem delete_do_apply_of_find (d : database) (op : withdraw_permission_delete_operation)
    (permit : withdraw_permission_object)
    (hfind : d.find_withdraw_permission op.withdrawal_permission = some permit) :
    withdraw_permission_delete_evaluator.do_apply d op = .ok (d.remove op.withdrawal_permission) := by
  unfold withdraw_permission_delete_evaluator.do_apply
  rw [get_withdraw_permission_of_find d _ _ hfind]
  rfl

/-- The permission that a completed claim apply stores. -/
theorem claim_do_apply_find (d d2 : database) (op : withdraw_permission_claim_operation)
    (p : withdraw_permission_object)
    (hfind : d.find_withdraw_permission op.withdraw_permission = some p)
    (happly : withdraw_permission_claim_evaluator.do_apply d op = .ok d2) :
    d2.head_block_time = d.head_block_time ∧
    d2.find_withdraw_permission op.withdraw_permission = some
      { p with
        period_start_time := time_point_sec_add p.period_start_time
          (to_uint32 (p.elapsed_periods d.head_block_time * (p.withdrawal_period_sec : Int)))
        claimed_this_period :=
          if p.elapsed_periods d.head_block_time = 0
          then p.claimed_this_period + op.amount_to_withdraw.amount
          else op.amount_to_withdraw.amount } := by
  obtain ⟨permit, p2, hfind2, hmut, hwp, hhead, -⟩ := claim_do_apply_ok d d2 op happly
  rw [hfind] at hfind2
  cases hfind2
  obtain ⟨-, rfl⟩ := (claim_mutator_eq_ok _ _ _ _).mp hmut
  refine ⟨hhead, ?_⟩
  rw [find_withdraw_permission_congr _ _ hwp,
    find_withdraw_permission_modify_same _ _ _ (find_withdraw_permission_lt _ _ _ hfind)]

/-- The 32-bit advance of the period start by `j` whole periods is exact when
the result is at most a 32-bit chain time. -/
theorem period_start_advance_exact (start period j t : Nat) (ht : t < 2 ^ 32)
    (hle : start + j * period ≤ t) :
    time_point_sec_add start (to_uint32 ((j : Int) * (period : Int))) = start + j * period := by
  have hc : (j : Int) * (period : Int) = ((j * period : Nat) : Int) := by push_cast; ring
  rw [hc, to_uint32_natCast]
  unfold time_point_sec_add
  have hlt : j * period < 2 ^ 32 := by omega
  rw [Nat.mod_eq_of_lt hlt, Nat.mod_eq_of_lt (by omega)]

theorem get_balance_amount_eq (d : database) (owner : account_id_type) (a : asset_id_type) :
    d.get_balance_amount owner a = ledger_balance d.balances owner a := rfl

theorem ledger_balance_set_same (bs : List account_balance_object) (owner : account_id_type)
    (a : asset_id_type) (delta : share_type) :
    ledger_balance (database.set_balance_delta bs owner a delta) owner a
      = ledger_balance bs owner a + delta := by
  induction bs with
  | nil => simp [ledger_balance, database.set_balance_delta]
  | cons b rest ih =>
    unfold database.set_balance_delta
    by_cases h : (b.owner == owner && b.asset_type == a) = true
    · rw [if_pos h]
      have h2 := h
      simp only [Bool.and_eq_true, beq_iff_eq] at h2
      simp [ledger_balance, List.find?, h2.1, h2.2]
    · rw [if_neg h]
      have hb : (b.owner == owner && b.asset_type == a) = false := by simpa using h
      have e1 : ledger_balance (b :: database.set_balance_delta rest owner a delta) owner a
          = ledger_balance (database.set_balance_delta rest owner a delta) owner a := by
        simp only [ledger_balance, List.find?, hb]
      have e2 : ledger_balance (b :: rest) owner a = ledger_balance rest owner a := by
        simp only [ledger_balance, List.find?, hb]
      rw [e1, e2, ih]

theorem ledger_balance_set_other (bs : List account_balance_object)
    (owner owner2 : account_id_type) (a a2 : asset_id_type) (delta : share_type)
    (hne : ¬ (owner2 = owner ∧ a2 = a)) :
    ledger_balance (database.set_balance_delta bs owner a delta) owner2 a2
      = ledger_balance bs owner2 a2 := by
  have hkey : ∀ b : account_balance_object,
      (b.owner == owner && b.asset_type == a) = true →
      (b.owner == owner2 && b.asset_type == a2) = false := by
    intro b hb
    simp only [Bool.and_eq_true, beq_iff_eq] at hb
    by_contra hc
    have hc2 : (b.owner == owner2 && b.asset_type == a2) = true := by simpa using hc
    simp only [Bool.and_eq_true, beq_iff_eq] at hc2
    exact hne ⟨hc2.1 ▸ hb.1, hc2.2 ▸ hb.2⟩
  induction bs with
  | nil =>
    have := hkey { owner := owner, asset_type := a, balance := delta } (by simp)
    simp only [database.set_balance_delta, ledger_balance, List.find?, this]
  | cons b rest ih =>
    unfold database.set_balance_delta
    by_cases h : (b.owner == owner && b.asset_type == a) = true
    · rw [if_pos h]
      have h1 := hkey b h
      have h2 := hkey { b with balance := b.balance + delta } h
      simp only [ledger_balance, List.find?, h1, h2]
    · rw [if_neg h]
      by_cases hb2 : (b.owner == owner2 && b.asset_type == a2) = true
      · simp only [ledger_balance, List.find?, hb2]
      · have hb3 : (b.owner == owner2 && b.asset_type == a2) = false := by simpa using hb2
        have e1 : ledger_balance (b :: database.set_balance_delta rest owner a delta) owner2 a2
            = ledger_balance (database.set_balance_delta rest owner a delta) owner2 a2 := by
          simp only [ledger_balance, List.find?, hb3]
        have e2 : ledger_balance (b :: rest) owner2 a2 = ledger_balance rest owner2 a2 := by
          simp only [ledger_balance, List.find?, hb3]
        rw [e1, e2, ih]

/-- Changing a function at one point of a list without repetition changes the
sum over the list by that much. -/
theorem sum_map_update (l : List Nat) (hnd : l.Nodup) (f g : Nat → Int) (x : Nat) (c : Int)
    (hx : x ∈ l) (hgx : g x = f x + c) (hg : ∀ y, y ≠ x → g y = f y) :
    (l.map g).sum = (l.map f).sum + c := by
  induction l with
  | nil => cases hx
  | cons y rest ih =>
    rw [List.nodup_cons] at hnd
    simp only [List.map_cons, List.sum_cons]
    by_cases hyx : y = x
    · subst hyx
      have hrest : rest.map g = rest.map f := by
        apply List.map_congr_left
        intro z hz
        exact hg z (fun h => hnd.1 (h ▸ hz))
      rw [hrest, hgx]
      ring
    · have hx2 : x ∈ rest := by
        rcases List.mem_cons.mp hx with h | h
        · exact absurd h.symm hyx
        · exact h
      rw [ih hnd.2 hx2, hg y hyx]
      ring

/-- The ledger that a completed claim apply leaves. -/
theorem claim_do_apply_balances (d d2 : database) (op : withdraw_permission_claim_operation)
    (h : withdraw_permission_claim_evaluator.do_apply d op = .ok d2) :
    d2.balances = database.set_balance_delta
      (database.set_balance_delta d.balances op.withdraw_from_account
        op.amount_to_withdraw.asset_id (-op.amount_to_withdraw.amount))
      op.withdraw_to_account op.amount_to_withdraw.asset_id op.amount_to_withdraw.amount := by
  unfold withdraw_permission_claim_evaluator.do_apply at h
  simp only [except_bind_eq_ok, get_withdraw_permission_eq_ok, pure, Except.pure,
    Except.ok.injEq] at h
  obtain ⟨permit, hfind, p2, hmut, d3, h3, d4, h4, rfl⟩ := h
  have e3 := adjust_balance_eq_ok _ _ _ _ h3
  have e4 := adjust_balance_eq_ok _ _ _ _ h4
  subst e3
  subst e4
  rfl

/-- Claim apply completes, with the successor database given here, when the
permission is stored, its period is not zero, and neither balance adjustment
would leave a negative balance. -/
theorem claim_do_apply_eq (d : database) (op : withdraw_permission_claim_operation)
    (p : withdraw_permission_object)
    (hfind : d.find_withdraw_permission op.withdraw_permission = some p)
    (hper : p.withdrawal_period_sec ≠ 0)
    (hdebit : 0 ≤ ledger_balance d.balances op.withdraw_from_account
      op.amount_to_withdraw.asset_id - op.amount_to_withdraw.amount)
    (hcredit : 0 ≤ ledger_balance
      (database.set_balance_delta d.balances op.withdraw_from_account
        op.amount_to_withdraw.asset_id (-op.amount_to_withdraw.amount))
      op.withdraw_to_account op.amount_to_withdraw.asset_id + op.amount_to_withdraw.amount) :
    withdraw_permission_claim_evaluator.do_apply d op = .ok
      { d with
        withdraw_permissions := d.withdraw_permissions.set op.withdraw_permission (some
          { p with
            period_start_time := time_point_sec_add p.period_start_time
              (to_uint32 (p.elapsed_periods d.head_block_time * (p.withdrawal_period_sec : Int)))
            claimed_this_period :=
              if p.elapsed_periods d.head_block_time = 0
              then p.claimed_this_period + op.amount_to_withdraw.amount
              else op.amount_to_withdraw.amount })
        balances := database.set_balance_delta
          (database.set_balance_delta d.balances op.withdraw_from_account
            op.amount_to_withdraw.asset_id (-op.amount_to_withdraw.amount))
          op.withdraw_to_account op.amount_to_withdraw.asset_id
          op.amount_to_withdraw.amount } := by
  unfold withdraw_permission_claim_evaluator.do_apply
  rw [(get_withdraw_permission_eq_ok d _ p).mpr hfind]
  have hmut : withdraw_permission_claim_evaluator.claim_mutator d.head_block_time
      op.amount_to_withdraw.amount p = .ok
        { p with
          period_start_time := time_point_sec_add p.period_start_time
            (to_uint32 (p.elapsed_periods d.head_block_time * (p.withdrawal_period_sec : Int)))
          claimed_this_period :=
            if p.elapsed_periods d.head_block_time = 0
            then p.claimed_this_period + op.amount_to_withdraw.amount
            else op.amount_to_withdraw.amount } :=
    (claim_mutator_eq_ok _ _ _ _).mpr ⟨hper, rfl⟩
  simp only [bind, Except.bind, hmut]
  have h1 : ¬ ((d.modify op.withdraw_permission
        { p with
          period_start_time := time_point_sec_add p.period_start_time
            (to_uint32 (p.elapsed_periods d.head_block_time * (p.withdrawal_period_sec : Int)))
          claimed_this_period :=
            if p.elapsed_periods d.head_block_time = 0
            then p.claimed_this_period + op.amount_to_withdraw.amount
            else op.amount_to_withdraw.amount }).get_balance_amount op.withdraw_from_account
          op.amount_to_withdraw.neg.asset_id + op.amount_to_withdraw.neg.amount < 0) := by
    have : (0 : Int) ≤ ledger_balance d.balances op.withdraw_from_account
      op.amount_to_withdraw.asset_id + -op.amount_to_withdraw.amount := by linarith
    exact not_lt.mpr this
  simp only [database.adjust_balance, h1, if_false]
  have h2 : ¬ (ledger_balance
      (database.set_balance_delta d.balances op.withdraw_from_account
        op.amount_to_withdraw.asset_id (-op.amount_to_withdraw.amount))
      op.withdraw_to_account op.amount_to_withdraw.asset_id + op.amount_to_withdraw.amount < 0) :=
    not_lt.mpr hcredit
  have h2b : ¬ (database.get_balance_amount
      { d.modify op.withdraw_permission
        { p with
          period_start_time := time_point_sec_add p.period_start_time
            (to_uint32 (p.elapsed_periods d.head_block_time * (p.withdrawal_period_sec : Int)))
          claimed_this_period :=
            if p.elapsed_periods d.head_block_time = 0
            then p.claimed_this_period + op.amount_to_withdraw.amount
            else op.amount_to_withdraw.amount } with
        balances := database.set_balance_delta d.balances op.withdraw_from_account
          op.amount_to_withdraw.asset_id (-op.amount_to_withdraw.amount) }
      op.withdraw_to_account op.amount_to_withdraw.asset_id + op.amount_to_withdraw.amount < 0) := h2
  simp only [asset.neg, database.modify] at h2b ⊢
  simp only [h2b, if_false]
  rfl

theorem get_asset_of_find (d : database) (id : asset_id_type) (a : asset_object)
    (h : d.find_asset id = some a) : d.get_asset id = .ok a := by
  unfold database.get_asset
  rw [h]

/-- Claim evaluate succeeds on an asset without transfer restriction and
without whitelist when the checks of lines 55 to 59 hold. -/
theorem claim_do_evaluate_of_unrestricted (d : database)
    (op : withdraw_permission_claim_operation) (permit : withdraw_permission_object)
    (a : asset_object)
    (hfind : d.find_withdraw_permission op.withdraw_permission = some permit)
    (hexp : permit.expiration > d.head_block_time)
    (hauth : permit.authorized_account = op.withdraw_to_account)
    (hfrom : permit.withdraw_from_account = op.withdraw_from_account)
    (hper : permit.withdrawal_period_sec ≠ 0)
    (hle : op.amount_to_withdraw.amount ≤ permit.withdrawal_limit.amount -
      (if permit.elapsed_periods d.head_block_time = 0 then permit.claimed_this_period else 0))
    (hbal : d.get_balance_amount op.withdraw_from_account op.amount_to_withdraw.asset_id ≥
      op.amount_to_withdraw.amount)
    (hasset : d.find_asset op.amount_to_withdraw.asset_id = some a)
    (hr : a.is_transfer_restricted = false) (hw : a.enforce_white_list = false) :
    withdraw_permission_claim_evaluator.do_evaluate d op = .ok () := by
  unfold withdraw_permission_claim_evaluator.do_evaluate
  rw [(get_withdraw_permission_eq_ok d _ permit).mpr hfind]
  have havail : permit.available_this_period d.head_block_time = .ok
      { amount := permit.withdrawal_limit.amount -
          (if permit.elapsed_periods d.head_block_time = 0 then permit.claimed_this_period else 0)
        asset_id := permit.withdrawal_limit.asset_id } :=
    (available_this_period_eq_ok _ _ _).mpr ⟨hper, rfl⟩
  have h1 : decide (permit.expiration > d.head_block_time) = true := decide_eq_true hexp
  have h2 : (permit.authorized_account == op.withdraw_to_account) = true := by simp [hauth]
  have h3 : (permit.withdraw_from_account == op.withdraw_from_account) = true := by simp [hfrom]
  have h4 : op.amount_to_withdraw.le
      { amount := permit.withdrawal_limit.amount -
          (if permit.elapsed_periods d.head_block_time = 0 then permit.claimed_this_period else 0)
        asset_id := permit.withdrawal_limit.asset_id } = true := by
    simp only [asset.le, decide_eq_true_eq]
    exact hle
  have h5 : (d.get_balance op.withdraw_from_account op.amount_to_withdraw.asset_id).ge
      op.amount_to_withdraw = true := by
    simp only [asset.ge, database.get_balance, decide_eq_true_eq]
    exact hbal
  simp only [bind, Except.bind, h1, h2, h3, h4, h5, havail, FC_ASSERT, if_true,
    get_asset_of_find d _ a hasset, hr, hw, Bool.false_eq_true, if_false, pure, Except.pure]

theorem apply_operation_claim_of_evaluate (d : database)
    (op : withdraw_permission_claim_operation)
    (hev : withdraw_permission_claim_evaluator.do_evaluate d op = .ok ()) :
    apply_operation d (.withdraw_permission_claim op)
      = withdraw_permission_claim_evaluator.do_apply d op := by
  simp only [apply_operation, hev, bind, Except.bind]

theorem apply_operation_create_of_evaluate (d : database)
    (op : withdraw_permission_create_operation) (id : withdraw_permission_id_type)
    (hev : withdraw_permission_create_evaluator.do_evaluate d op = .ok id) :
    apply_operation d (.withdraw_permission_create op) = .ok (d.create
      { withdraw_from_account := op.withdraw_from_account
        authorized_account := op.authorized_account
        withdrawal_limit := op.withdrawal_limit
        withdrawal_period_sec := op.withdrawal_period_sec
        expiration := time_point_sec_add op.period_start_time
          (uint32_mul op.periods_until_expiration op.withdrawal_period_sec)
        period_start_time := op.period_start_time
        claimed_this_period := 0 }).2 := by
  simp only [apply_operation, hev, bind, Except.bind,
    withdraw_permission_create_evaluator.do_apply, pure, Except.pure]

/-- A traversal that reaches the sentinel reaches it again, with the same
result, when nodes are added at the end of the table and fuel is added. -/
theorem history_from_mono (nodes extra : List account_transaction_history_object) :
    ∀ (fuel : Nat) (cur : Option account_transaction_history_id_type)
      (l : List operation_history_id_type),
      history_store.history_from nodes fuel cur = some l →
      ∀ more : Nat, history_store.history_from (nodes ++ extra) (fuel + more) cur = some l := by
  intro fuel
  induction fuel with
  | zero =>
    intro cur l h more
    cases cur with
    | none =>
      simp only [history_store.history_from] at h ⊢
      exact h
    | some i => simp [history_store.history_from] at h
  | succ f ih =>
    intro cur l h more
    cases cur with
    | none =>
      simp only [history_store.history_from] at h ⊢
      exact h
    | some i =>
      simp only [history_store.history_from] at h
      have hfm : f + 1 + more = (f + more) + 1 := by omega
      rw [hfm]
      simp only [history_store.history_from]
      cases hn : nodes[i]? with
      | none => simp [hn] at h
      | some n =>
        have hi : i < nodes.length := by
          by_contra hc
          rw [List.getElem?_eq_none (Nat.le_of_not_lt hc)] at hn
          cases hn
        rw [List.getElem?_append_left hi, hn]
        simp only [hn] at h
        cases hrec : history_store.history_from nodes f n.next with
        | none => simp [hrec] at h
        | some l2 =>
          rw [hrec] at h
          simp only []
          rw [ih n.next l2 hrec more]
          exact h

theorem history_append_same (h : history_store) (a : account_id_type)
    (r : operation_history_id_type) (l : List operation_history_id_type)
    (hl : h.history a = some l) :
    (h.append_to_account a r).history a = some (r :: l) := by
  unfold history_store.history history_store.append_to_account
  simp only [if_true, List.length_append, List.length_singleton]
  simp only [history_store.history_from]
  rw [List.getElem?_append_right (Nat.le_refl _)]
  simp only [Nat.sub_self, List.getElem?_cons_zero]
  have := history_from_mono h.account_transaction_histories
    [{ operation_id := r, next := h.most_recent_op a }] _ _ l hl 0
  rw [Nat.add_zero] at this
  rw [this]
  rfl

theorem history_append_other (h : history_store) (a b : account_id_type)
    (r : operation_history_id_type) (l : List operation_history_id_type) (hne : b ≠ a)
    (hl : h.history b = some l) :
    (h.append_to_account a r).history b = some l := by
  unfold history_store.history history_store.append_to_account
  simp only [hne, if_false, List.length_append, List.length_singleton]
  exact history_from_mono h.account_transaction_histories _ _ _ l hl 1

theorem history_append_all (appends : List (account_id_type × operation_history_id_type)) :
    ∀ (h : history_store) (account : account_id_type) (l : List operation_history_id_type),
      h.history account = some l →
      (h.append_all appends).history account
        = some ((history_store.appended_for appends account).reverse ++ l) := by
  induction appends with
  | nil =>
    intro h account l hl
    simpa [history_store.append_all, history_store.appended_for] using hl
  | cons x rest ih =>
    intro h account l hl
    have hfold : h.append_all (x :: rest) = (h.append_to_account x.1 x.2).append_all rest := rfl
    rw [hfold]
    by_cases hx : x.1 = account
    · subst hx
      rw [ih _ x.1 (x.2 :: l) (history_append_same h _ x.2 l hl)]
      simp [history_store.appended_for]
    · rw [ih _ account l (history_append_other h x.1 account x.2 l (Ne.symm hx) hl)]
      simp [history_store.appended_for, hx]

/-! ### Limits across updates, and whole operations -/

theorem mem_filter_ne (ids : List withdraw_permission_id_type)
    (x y : withdraw_permission_id_type) :
    y ∈ ids.filter (fun i => i != x) ↔ y ∈ ids ∧ y ≠ x := by
  simp [List.mem_filter]

/-- An operation that goes through keeps every claimed permission that no
update has lowered within its limit, and a claim adds its permission to
them. -/
theorem apply_operation_within_limit_unless (d d2 : database) (o : operation)
    (ids lowered : List withdraw_permission_id_type)
    (hinv : within_limit_unless d ids lowered)
    (h : apply_operation d o = .ok d2) :
    within_limit_unless d2 (o.claimed_permission ++ ids) (o.lowered d lowered) := by
  cases o with
  | withdraw_permission_update op =>
    simp only [apply_operation, except_bind_eq_ok] at h
    obtain ⟨u, hev, hap⟩ := h
    obtain ⟨permit, hfind, -⟩ := (update_do_evaluate_eq_ok d op).mp hev
    rw [update_do_apply_of_find d op permit hfind] at hap
    have hd2 := (Except.ok.inj hap).symm
    subst hd2
    have hlen : (d.modify op.permission_to_update
        { permit with
          period_start_time := op.period_start_time
          expiration := time_point_sec_add op.period_start_time
            (uint32_mul op.periods_until_expiration op.withdrawal_period_sec)
          withdrawal_limit := op.withdrawal_limit
          withdrawal_period_sec := op.withdrawal_period_sec }).withdraw_permissions.length
        = d.withdraw_permissions.length := by
      simp [database.modify]
    intro id hid hnl
    simp only [operation.claimed_permission, List.nil_append] at hid
    simp only [operation.lowered, hfind] at hnl
    by_cases hlow : op.withdrawal_limit.amount < permit.claimed_this_period
    · rw [if_pos hlow] at hnl
      have hne : id ≠ op.permission_to_update := fun hc => hnl (hc ▸ List.mem_cons_self _ _)
      have hnl2 : id ∉ lowered := fun hc => hnl (List.mem_cons_of_mem _ hc)
      obtain ⟨hlt, hb⟩ := hinv id hid hnl2
      refine ⟨hlen ▸ hlt, fun p hp => hb p ?_⟩
      rw [find_withdraw_permission_modify_other _ _ _ _ hne] at hp
      exact hp
    · rw [if_neg hlow] at hnl
      by_cases hne : id = op.permission_to_update
      · subst hne
        have hlt := find_withdraw_permission_lt _ _ _ hfind
        refine ⟨hlen ▸ hlt, fun p hp => ?_⟩
        rw [find_withdraw_permission_modify_same _ _ _ hlt] at hp
        cases hp
        exact not_lt.mp hlow
      · have hnl2 : id ∉ lowered := fun hc => hnl ((mem_filter_ne _ _ _).mpr ⟨hc, hne⟩)
        obtain ⟨hlt, hb⟩ := hinv id hid hnl2
        refine ⟨hlen ▸ hlt, fun p hp => hb p ?_⟩
        rw [find_withdraw_permission_modify_other _ _ _ _ hne] at hp
        exact hp
  | withdraw_permission_create op =>
    simp only [apply_operation, except_bind_eq_ok, withdraw_permission_create_evaluator.do_apply,
      pure, Except.pure, Except.ok.injEq] at h
    obtain ⟨-, -, r, hr, rfl⟩ := h
    subst hr
    intro id hid hnl
    simp only [operation.claimed_permission, List.nil_append] at hid
    simp only [operation.lowered] at hnl
    obtain ⟨hlt, hb⟩ := hinv id hid hnl
    refine ⟨?_, fun p hp => hb p ?_⟩
    · simp only [database.create, List.length_append, List.length_singleton]
      exact Nat.lt_succ_of_lt hlt
    · rw [find_withdraw_permission_create_other _ _ _ (Nat.ne_of_lt hlt)] at hp
      exact hp
  | withdraw_permission_delete op =>
    simp only [apply_operation, except_bind_eq_ok, withdraw_permission_delete_evaluator.do_apply,
      pure, Except.pure, Except.ok.injEq] at h
    obtain ⟨-, -, -, -, rfl⟩ := h
    intro id hid hnl
    simp only [operation.claimed_permission, List.nil_append] at hid
    simp only [operation.lowered] at hnl
    obtain ⟨hlt, hb⟩ := hinv id hid hnl
    refine ⟨?_, fun p hp => hb p ?_⟩
    · simpa [database.remove] using hlt
    · by_cases hid2 : id = op.withdrawal_permission
      · subst hid2
        rw [find_withdraw_permission_remove_same] at hp
        cases hp
      · rw [find_withdraw_permission_remove_other _ _ _ hid2] at hp
        exact hp
  | withdraw_permission_claim op =>
    simp only [apply_operation, except_bind_eq_ok] at h
    obtain ⟨u, hev, hap⟩ := h
    obtain ⟨p2, hf2, hle, hwp⟩ := claim_within_limit d d2 op hev hap
    have hlen : d2.withdraw_permissions.length = d.withdraw_permissions.length := by
      rw [hwp]; simp [database.modify]
    intro id hid hnl
    simp only [operation.claimed_permission, List.singleton_append, List.mem_cons] at hid
    simp only [operation.lowered] at hnl
    by_cases hid2 : id = op.withdraw_permission
    · subst hid2
      refine ⟨find_withdraw_permission_lt _ _ _ hf2, fun p hp => ?_⟩
      rw [hf2] at hp
      cases hp
      exact hle
    · rcases hid with hid | hid
      · exact absurd hid hid2
      · have hnl2 : id ∉ lowered := fun hc => hnl ((mem_filter_ne _ _ _).mpr ⟨hc, hid2⟩)
        obtain ⟨hlt, hb⟩ := hinv id hid hnl2
        refine ⟨hlen ▸ hlt, fun p hp => hb p ?_⟩
        rw [find_withdraw_permission_congr _ _ hwp,
          find_withdraw_permission_modify_other _ _ _ _ hid2] at hp
        exact hp

theorem apply_operations_within_limit_unless (steps : List (Nat × operation)) :
    ∀ (d d2 : database) (ids lowered : List withdraw_permission_id_type),
      within_limit_unless d ids lowered →
      apply_operations d steps = .ok d2 →
      within_limit_unless d2 (claimed_permissions steps ++ ids)
        (lowered_from d lowered steps) := by
  induction steps with
  | nil =>
    intro d d2 ids lowered hinv h
    simp only [apply_operations, Except.ok.injEq] at h
    subst h
    simpa [claimed_permissions, lowered_from] using hinv
  | cons s rest ih =>
    intro d d2 ids lowered hinv h
    obtain ⟨t, o⟩ := s
    simp only [apply_operations, except_bind_eq_ok] at h
    obtain ⟨d1, h1, h2⟩ := h
    have hinv0 : within_limit_unless (d.at_time t) ids lowered := hinv
    have hstep := apply_operation_within_limit_unless (d.at_time t) d1 o ids lowered hinv0 h1
    have hrest := ih d1 d2 _ _ hstep h2
    have hl : lowered_from d lowered ((t, o) :: rest)
        = lowered_from d1 (o.lowered (d.at_time t) lowered) rest := by
      simp only [lowered_from, h1]
    rw [hl]
    intro id hid hnl
    apply hrest id _ hnl
    simp only [claimed_permissions, List.mem_append] at hid ⊢
    tauto

/-- An operation that goes through keeps every lowered permission above its
limit. -/
theorem apply_operation_exceeds_limit (d d2 : database) (o : operation)
    (lowered : List withdraw_permission_id_type)
    (hinv : exceeds_limit d lowered)
    (h : apply_operation d o = .ok d2) :
    exceeds_limit d2 (o.lowered d lowered) := by
  cases o with
  | withdraw_permission_update op =>
    simp only [apply_operation, except_bind_eq_ok] at h
    obtain ⟨u, hev, hap⟩ := h
    obtain ⟨permit, hfind, -⟩ := (update_do_evaluate_eq_ok d op).mp hev
    rw [update_do_apply_of_find d op permit hfind] at hap
    have hd2 := (Except.ok.inj hap).symm
    subst hd2
    have hlen : (d.modify op.permission_to_update
        { permit with
          period_start_time := op.period_start_time
          expiration := time_point_sec_add op.period_start_time
            (uint32_mul op.periods_until_expiration op.withdrawal_period_sec)
          withdrawal_limit := op.withdrawal_limit
          withdrawal_period_sec := op.withdrawal_period_sec }).withdraw_permissions.length
        = d.withdraw_permissions.length := by
      simp [database.modify]
    have hlt0 := find_withdraw_permission_lt _ _ _ hfind
    intro id hid
    simp only [operation.lowered, hfind] at hid
    by_cases hlow : op.withdrawal_limit.amount < permit.claimed_this_period
    · rw [if_pos hlow] at hid
      by_cases hne : id = op.permission_to_update
      · subst hne
        refine ⟨hlen ▸ hlt0, fun p hp => ?_⟩
        rw [find_withdraw_permission_modify_same _ _ _ hlt0] at hp
        cases hp
        exact hlow
      · rcases List.mem_cons.mp hid with hid | hid
        · exact absurd hid hne
        · obtain ⟨hlt, hb⟩ := hinv id hid
          refine ⟨hlen ▸ hlt, fun p hp => hb p ?_⟩
          rw [find_withdraw_permission_modify_other _ _ _ _ hne] at hp
          exact hp
    · rw [if_neg hlow] at hid
      obtain ⟨hid1, hne⟩ := (mem_filter_ne _ _ _).mp hid
      obtain ⟨hlt, hb⟩ := hinv id hid1
      refine ⟨hlen ▸ hlt, fun p hp => hb p ?_⟩
      rw [find_withdraw_permission_modify_other _ _ _ _ hne] at hp
      exact hp
  | withdraw_permission_create op =>
    simp only [apply_operation, except_bind_eq_ok, withdraw_permission_create_evaluator.do_apply,
      pure, Except.pure, Except.ok.injEq] at h
    obtain ⟨-, -, r, hr, rfl⟩ := h
    subst hr
    intro id hid
    simp only [operation.lowered] at hid
    obtain ⟨hlt, hb⟩ := hinv id hid
    refine ⟨?_, fun p hp => hb p ?_⟩
    · simp only [database.create, List.length_append, List.length_singleton]
      exact Nat.lt_succ_of_lt hlt
    · rw [find_withdraw_permission_create_other _ _ _ (Nat.ne_of_lt hlt)] at hp
      exact hp
  | withdraw_permission_delete op =>
    simp only [apply_operation, except_bind_eq_ok, withdraw_permission_delete_evaluator.do_apply,
      pure, Except.pure, Except.ok.injEq] at h
    obtain ⟨-, -, -, -, rfl⟩ := h
    intro id hid
    simp only [operation.lowered] at hid
    obtain ⟨hlt, hb⟩ := hinv id hid
    refine ⟨?_, fun p hp => hb p ?_⟩
    · simpa [database.remove] using hlt
    · by_cases hid2 : id = op.withdrawal_permission
      · subst hid2
        rw [find_withdraw_permission_remove_same] at hp
        cases hp
      · rw [find_withdraw_permission_remove_other _ _ _ hid2] at hp
        exact hp
  | withdraw_permission_claim op =>
    simp only [apply_operation, except_bind_eq_ok] at h
    obtain ⟨u, hev, hap⟩ := h
    obtain ⟨p2, hf2, hle, hwp⟩ := claim_within_limit d d2 op hev hap
    have hlen : d2.withdraw_permissions.length = d.withdraw_permissions.length := by
      rw [hwp]; simp [database.modify]
    intro id hid
    simp only [operation.lowered] at hid
    obtain ⟨hid1, hne⟩ := (mem_filter_ne _ _ _).mp hid
    obtain ⟨hlt, hb⟩ := hinv id hid1
    refine ⟨hlen ▸ hlt, fun p hp => hb p ?_⟩
    rw [find_withdraw_permission_congr _ _ hwp,
      find_withdraw_permission_modify_other _ _ _ _ hne] at hp
    exact hp

theorem apply_operations_exceeds_limit (steps : List (Nat × operation)) :
    ∀ (d d2 : database) (lowered : List withdraw_permission_id_type),
      exceeds_limit d lowered →
      apply_operations d steps = .ok d2 →
      exceeds_limit d2 (lowered_from d lowered steps) := by
  induction steps with
  | nil =>
    intro d d2 lowered hinv h
    simp only [apply_operations, Except.ok.injEq] at h
    subst h
    simpa [lowered_from] using hinv
  | cons s rest ih =>
    intro d d2 lowered hinv h
    obtain ⟨t, o⟩ := s
    simp only [apply_operations, except_bind_eq_ok] at h
    obtain ⟨d1, h1, h2⟩ := h
    have hinv0 : exceeds_limit (d.at_time t) lowered := hinv
    have hstep := apply_operation_exceeds_limit (d.at_time t) d1 o lowered hinv0 h1
    have hl : lowered_from d lowered ((t, o) :: rest)
        = lowered_from d1 (o.lowered (d.at_time t) lowered) rest := by
      simp only [lowered_from, h1]
    rw [hl]
    exact ih d1 d2 _ hstep h2

/-- Create evaluate succeeds exactly when its six assertions hold, the
expiration being the exact sum reduced modulo `2 ^ 32`. -/
theorem create_do_evaluate_ok_iff (d : database) (op : withdraw_permission_create_operation) :
    (∃ id, withdraw_permission_create_evaluator.do_evaluate d op = .ok id) ↔
      ((d.find_account op.withdraw_from_account).isSome = true ∧
       (d.find_account op.authorized_account).isSome = true ∧
       (d.find_asset op.withdrawal_limit.asset_id).isSome = true ∧
       op.period_start_time > d.head_block_time ∧
       (op.period_start_time + op.periods_until_expiration * op.withdrawal_period_sec) % 2 ^ 32
         > d.head_block_time ∧
       op.withdrawal_period_sec ≥ d.block_interval) := by
  rw [← time_point_sec_add_uint32_mul]
  constructor
  · rintro ⟨id, h⟩
    obtain ⟨h1, h2, h3, h4, h5, h6, -⟩ := (create_do_evaluate_eq_ok d op id).mp h
    exact ⟨h1, h2, h3, h4, h5, h6⟩
  · rintro ⟨h1, h2, h3, h4, h5, h6⟩
    exact ⟨d.get_next_id, (create_do_evaluate_eq_ok d op _).mpr ⟨h1, h2, h3, h4, h5, h6, rfl⟩⟩

/-- Update evaluate succeeds exactly when the permission resolves and its six
assertions hold, the expiration being the exact sum reduced modulo `2 ^ 32`. -/
theorem update_do_evaluate_ok_iff (d : database) (op : withdraw_permission_update_operation) :
    withdraw_permission_update_evaluator.do_evaluate d op = .ok () ↔
      ∃ permit, d.find_withdraw_permission op.permission_to_update = some permit ∧
        op.withdraw_from_account = permit.withdraw_from_account ∧
        op.authorized_account = permit.authorized_account ∧
        (d.find_asset op.withdrawal_limit.asset_id).isSome = true ∧
        op.period_start_time ≥ d.head_block_time ∧
        (op.period_start_time + op.periods_until_expiration * op.withdrawal_period_sec) % 2 ^ 32
          > d.head_block_time ∧
        op.withdrawal_period_sec ≥ d.block_interval := by
  rw [← time_point_sec_add_uint32_mul, update_do_evaluate_eq_ok]
  constructor
  · rintro ⟨p, hp, h1, h2, h3, h4, h5, h6⟩
    exact ⟨p, hp, h2.symm, h1.symm, h3, h4, h5, h6⟩
  · rintro ⟨p, hp, h1, h2, h3, h4, h5, h6⟩
    exact ⟨p, hp, h2.symm, h1.symm, h3, h4, h5, h6⟩

/-- A create goes through exactly when create evaluate succeeds; its result is
that of create apply. -/
theorem apply_operation_create_eq_ok (d d2 : database)
    (op : withdraw_permission_create_operation) :
    apply_operation d (.withdraw_permission_create op) = .ok d2 ↔
      (∃ id, withdraw_permission_create_evaluator.do_evaluate d op = .ok id) ∧
      withdraw_permission_create_evaluator.do_apply d op = .ok (d.get_next_id, d2) := by
  simp only [apply_operation, except_bind_eq_ok, withdraw_permission_create_evaluator.do_apply,
    pure, Except.pure, Except.ok.injEq]
  constructor
  · rintro ⟨id, hid, r, hr, rfl⟩
    subst hr
    exact ⟨⟨id, hid⟩, rfl⟩
  · rintro ⟨⟨id, hid⟩, h⟩
    exact ⟨id, hid, _, rfl, (Prod.mk.inj h).2⟩

/-- An update goes through exactly when update evaluate and update apply
succeed. -/
theorem apply_operation_update_eq_ok (d d2 : database)
    (op : withdraw_permission_update_operation) :
    apply_operation d (.withdraw_permission_update op) = .ok d2 ↔
      withdraw_permission_update_evaluator.do_evaluate d op = .ok () ∧
      withdraw_permission_update_evaluator.do_apply d op = .ok d2 := by
  simp only [apply_operation, except_bind_eq_ok]
  constructor
  · rintro ⟨u, hu, h⟩
    exact ⟨hu, h⟩
  · rintro ⟨hu, h⟩
    exact ⟨(), hu, h⟩

/-! ## The claims -/

/-- C2: period rollover. Let `q` be the truncating quotient of
`head_block_time − period_start_time` by `withdrawal_period_sec`, and let claim
apply complete on a database that stores the permission `p`. If `q = 0`, the
stored permission is `p` with `claimed_this_period` increased by the claimed
amount and `period_start_time` unchanged. If `q = k > 0`, it is `p` with
`claimed_this_period` equal to the claimed amount and `period_start_time`
increased by `k * withdrawal_period_sec`, whatever the size of `k`. Times are
32-bit values. -/
theorem claim_apply_period_rollover (d d2 : database) (op : withdraw_permission_claim_operation)
    (p : withdraw_permission_object)
    (hfind : d.find_withdraw_permission op.withdraw_permission = some p)
    (hstart : p.period_start_time < 2 ^ 32) (hnow : d.head_block_time < 2 ^ 32)
    (happly : withdraw_permission_claim_evaluator.do_apply d op = .ok d2) :
    (Int.tdiv ((d.head_block_time : Int) - (p.period_start_time : Int))
        (p.withdrawal_period_sec : Int) = 0 →
      d2.find_withdraw_permission op.withdraw_permission = some
        { p with claimed_this_period := p.claimed_this_period + op.amount_to_withdraw.amount }) ∧
    (∀ k : Nat, 0 < k →
      Int.tdiv ((d.head_block_time : Int) - (p.period_start_time : Int))
        (p.withdrawal_period_sec : Int) = (k : Int) →
      d2.find_withdraw_permission op.withdraw_permission = some
        { p with
          period_start_time := p.period_start_time + k * p.withdrawal_period_sec
          claimed_this_period := op.amount_to_withdraw.amount }) := by
  obtain ⟨permit, p2, hfind2, hmut, hwp, -⟩ := claim_do_apply_ok d d2 op happly
  rw [hfind] at hfind2
  cases hfind2
  obtain ⟨-, rfl⟩ := (claim_mutator_eq_ok _ _ _ _).mp hmut
  rw [find_withdraw_permission_congr _ _ hwp,
    find_withdraw_permission_modify_same _ _ _ (find_withdraw_permission_lt _ _ _ hfind)]
  constructor
  · intro hq
    have hq2 : p.elapsed_periods d.head_block_time = 0 := hq
    simp only [hq2, if_true, Int.zero_mul]
    have : time_point_sec_add p.period_start_time (to_uint32 0) = p.period_start_time := by
      have h0 : to_uint32 0 = 0 := by simp [to_uint32]
      rw [h0]
      unfold time_point_sec_add
      rw [Nat.add_zero, Nat.mod_eq_of_lt hstart]
    rw [this]
  · intro k hk hq
    have hq2 : p.elapsed_periods d.head_block_time = (k : Int) := hq
    have hle := elapsed_periods_pos p _ k hk hq2
    have hk0 : ¬ ((k : Int) = 0) := by omega
    simp only [hq2, hk0, if_false]
    have : time_point_sec_add p.period_start_time
        (to_uint32 ((k : Int) * (p.withdrawal_period_sec : Int)))
        = p.period_start_time + k * p.withdrawal_period_sec := by
      have hc : (k : Int) * (p.withdrawal_period_sec : Int)
          = ((k * p.withdrawal_period_sec : Nat) : Int) := by push_cast; ring
      rw [hc, to_uint32_natCast]
      unfold time_point_sec_add
      have hlt : k * p.withdrawal_period_sec < 2 ^ 32 := by omega
      rw [Nat.mod_eq_of_lt hlt, Nat.mod_eq_of_lt (by omega)]
    rw [this]

/-- A claim of 60 at time 1100, one period after the start of `sample_permit`:
the counter becomes 60 and the period start 1100. -/
theorem claim_apply_period_rollover_witness :
    (sample_permit_db 1100).find_withdraw_permission (sample_claim 60).withdraw_permission
      = some sample_permit ∧
    withdraw_permission_claim_evaluator.do_apply (sample_permit_db 1100) (sample_claim 60)
      = .ok sample_rolled_db ∧
    sample_rolled_db.find_withdraw_permission 0 = some
      { sample_permit with period_start_time := 1100, claimed_this_period := 60 } :=
  ⟨rfl, rfl, (claim_apply_period_rollover (sample_permit_db 1100) sample_rolled_db
    (sample_claim 60) sample_permit rfl (by decide) (by decide) rfl).2 1 (by decide)
    (by decide)⟩

/-- C3: claim rejection. When the claimed amount is greater than what is
available in the current period, that is `withdrawal_limit.amount` minus the
counter as it stands after the rollover (the stored counter when no period has
elapsed, zero otherwise), claim evaluate fails and the submitted operation
leaves the database, permission records and balances included, as it was. -/
theorem claim_over_available_rejected (d : database) (op : withdraw_permission_claim_operation)
    (p : withdraw_permission_object)
    (hfind : d.find_withdraw_permission op.withdraw_permission = some p)
    (hover : op.amount_to_withdraw.amount > p.withdrawal_limit.amount -
      (if Int.tdiv ((d.head_block_time : Int) - (p.period_start_time : Int))
          (p.withdrawal_period_sec : Int) = 0 then p.claimed_this_period else 0)) :
    (∃ e, withdraw_permission_claim_evaluator.do_evaluate d op = .error e) ∧
    push_operation d (.withdraw_permission_claim op) = d := by
  have hfail : ∃ e, withdraw_permission_claim_evaluator.do_evaluate d op = .error e := by
    rcases except_ok_or_error (withdraw_permission_claim_evaluator.do_evaluate d op) with
      ⟨u, hu⟩ | he
    · exfalso
      obtain ⟨permit, hfind2, -, -, -, -, hle, -⟩ := claim_do_evaluate_ok d op hu
      rw [hfind] at hfind2
      cases hfind2
      have hle2 : op.amount_to_withdraw.amount ≤ p.withdrawal_limit.amount -
        (if Int.tdiv ((d.head_block_time : Int) - (p.period_start_time : Int))
          (p.withdrawal_period_sec : Int) = 0 then p.claimed_this_period else 0) := hle
      exact absurd hle2 (not_le.mpr hover)
    · exact he
  refine ⟨hfail, ?_⟩
  obtain ⟨e, he⟩ := hfail
  simp [push_operation, apply_operation, he, bind, Except.bind]

/-- A claim of 101 against the limit of 100 of `sample_permit` at time 1000 is
rejected and changes nothing. -/
theorem claim_over_available_rejected_witness :
    (sample_permit_db 1000).find_withdraw_permission (sample_claim 101).withdraw_permission
      = some sample_permit ∧
    ((∃ e, withdraw_permission_claim_evaluator.do_evaluate (sample_permit_db 1000)
        (sample_claim 101) = .error e) ∧
      push_operation (sample_permit_db 1000) (.withdraw_permission_claim (sample_claim 101))
        = sample_permit_db 1000) :=
  ⟨rfl, claim_over_available_rejected (sample_permit_db 1000) (sample_claim 101) sample_permit
    rfl (by decide)⟩

/-- C4, as stated, fails: on `sample_db`, at chain time 500, both accounts and
the asset of `wrapping_create` exist, its fields are 32-bit values,
`period_start_time = 1000 > 500`, the sum `1000 + 1 * 4294966396` is above 500
and `withdrawal_period_sec ≥ 5`; yet create evaluate rejects it: the sum the
code compares with the chain time is that sum reduced modulo `2 ^ 32`, which is
100. -/
theorem create_evaluate_rejects_wrapped_sum :
    (sample_db.find_account wrapping_create.withdraw_from_account).isSome = true ∧
    (sample_db.find_account wrapping_create.authorized_account).isSome = true ∧
    (sample_db.find_asset wrapping_create.withdrawal_limit.asset_id).isSome = true ∧
    wrapping_create.period_start_time < 2 ^ 32 ∧
    wrapping_create.periods_until_expiration < 2 ^ 32 ∧
    wrapping_create.withdrawal_period_sec < 2 ^ 32 ∧
    wrapping_create.period_start_time > sample_db.head_block_time ∧
    wrapping_create.period_start_time
      + wrapping_create.periods_until_expiration * wrapping_create.withdrawal_period_sec
      > sample_db.head_block_time ∧
    wrapping_create.withdrawal_period_sec ≥ sample_db.block_interval ∧
    withdraw_permission_create_evaluator.do_evaluate sample_db wrapping_create
      = .error .assert_exception :=
  ⟨rfl, rfl, rfl, by decide, by decide, by decide, by decide, by decide, by decide, rfl⟩

/-- C4, amended: create validation. In a database where both accounts and the
limit's asset exist, create evaluate succeeds if and only if
`period_start_time > head_block_time`, and
`(period_start_time + periods_until_expiration * withdrawal_period_sec) mod 2 ^ 32
> head_block_time`, and `withdrawal_period_sec ≥ block_interval`. -/
theorem create_evaluate_succeeds_iff_mod (d : database)
    (op : withdraw_permission_create_operation)
    (hfrom : (d.find_account op.withdraw_from_account).isSome = true)
    (hauth : (d.find_account op.authorized_account).isSome = true)
    (hasset : (d.find_asset op.withdrawal_limit.asset_id).isSome = true) :
    (∃ id, withdraw_permission_create_evaluator.do_evaluate d op = .ok id) ↔
      (op.period_start_time > d.head_block_time ∧
       (op.period_start_time + op.periods_until_expiration * op.withdrawal_period_sec) % 2 ^ 32
         > d.head_block_time ∧
       op.withdrawal_period_sec ≥ d.block_interval) := by
  rw [create_do_evaluate_ok_iff]
  constructor
  · rintro ⟨-, -, -, h4, h5, h6⟩
    exact ⟨h4, h5, h6⟩
  · rintro ⟨h4, h5, h6⟩
    exact ⟨hfrom, hauth, hasset, h4, h5, h6⟩

/-- The operation `sample_create` at time 500: the accounts and the asset exist,
the sum is 1200, the three conditions hold, and create evaluate succeeds. -/
theorem create_evaluate_succeeds_iff_mod_witness :
    (sample_db.find_account sample_create.withdraw_from_account).isSome = true ∧
    (sample_db.find_account sample_create.authorized_account).isSome = true ∧
    (sample_db.find_asset sample_create.withdrawal_limit.asset_id).isSome = true ∧
    (sample_create.period_start_time
      + sample_create.periods_until_expiration * sample_create.withdrawal_period_sec) % 2 ^ 32
      = 1200 ∧
    ∃ id, withdraw_permission_create_evaluator.do_evaluate sample_db sample_create = .ok id :=
  ⟨rfl, rfl, rfl, by decide,
    (create_evaluate_succeeds_iff_mod sample_db sample_create rfl rfl rfl).mpr (by decide)⟩

/-- C5, as stated, fails: create apply of `overflow_create`, whose fields are
32-bit values, on `sample_db` stores the expiration 1004, which is not
`period_start_time + periods_until_expiration * withdrawal_period_sec
= 1000 + 42949673 * 100 = 4294968300`. -/
theorem create_apply_stores_wrapped_expiration :
    withdraw_permission_create_evaluator.do_apply sample_db overflow_create
      = .ok (0, overflow_db) ∧
    overflow_db.find_withdraw_permission 0 = some { sample_permit with expiration := 1004 } ∧
    overflow_create.period_start_time < 2 ^ 32 ∧
    overflow_create.periods_until_expiration < 2 ^ 32 ∧
    overflow_create.withdrawal_period_sec < 2 ^ 32 ∧
    overflow_create.period_start_time
      + overflow_create.periods_until_expiration * overflow_create.withdrawal_period_sec
      = 4294968300 ∧
    ¬ ((1004 : Nat) = overflow_create.period_start_time
      + overflow_create.periods_until_expiration * overflow_create.withdrawal_period_sec) :=
  ⟨rfl, rfl, by decide, by decide, by decide, by decide, by decide⟩

/-- C5, amended: create apply. Create apply always completes; it returns the
next free identifier, under which nothing was stored before and under which the
new database stores the permission whose accounts, limit, period length and
period start are the operation's, whose expiration is
`(period_start_time + periods_until_expiration * withdrawal_period_sec) mod 2 ^ 32`
and whose `claimed_this_period` is 0. Under every other identifier the lookup
is as before, and chain time, accounts, assets and balances are unchanged. -/
theorem create_apply_adds_one_permission_mod (d : database)
    (op : withdraw_permission_create_operation) :
    ∃ d2, withdraw_permission_create_evaluator.do_apply d op = .ok (d.get_next_id, d2) ∧
      d.find_withdraw_permission d.get_next_id = none ∧
      d2.find_withdraw_permission d.get_next_id = some
        { withdraw_from_account := op.withdraw_from_account
          authorized_account := op.authorized_account
          withdrawal_limit := op.withdrawal_limit
          withdrawal_period_sec := op.withdrawal_period_sec
          period_start_time := op.period_start_time
          expiration := (op.period_start_time
            + op.periods_until_expiration * op.withdrawal_period_sec) % 2 ^ 32
          claimed_this_period := 0 } ∧
      (∀ id, id ≠ d.get_next_id →
        d2.find_withdraw_permission id = d.find_withdraw_permission id) ∧
      d2.get_next_id = d.get_next_id + 1 ∧
      d2.head_block_time = d.head_block_time ∧ d2.block_interval = d.block_interval ∧
      d2.accounts = d.accounts ∧ d2.assets = d.assets ∧ d2.balances = d.balances := by
  rw [← time_point_sec_add_uint32_mul]
  refine ⟨_, rfl, find_withdraw_permission_next_id d, find_withdraw_permission_create_new d _,
    fun id h => find_withdraw_permission_create_other d _ id h, ?_, rfl, rfl, rfl, rfl, rfl⟩
  simp [database.create, database.get_next_id]

/-- The operation `sample_create` applied to `sample_db` stores `sample_permit`
under identifier 0. -/
theorem create_apply_adds_one_permission_mod_witness :
    withdraw_permission_create_evaluator.do_apply sample_db sample_create
      = .ok (0, sample_permit_db 500) ∧
    (sample_permit_db 500).find_withdraw_permission 0 = some sample_permit ∧
    (∃ d2, withdraw_permission_create_evaluator.do_apply sample_db sample_create
      = .ok (sample_db.get_next_id, d2)) :=
  ⟨rfl, rfl,
    (create_apply_adds_one_permission_mod sample_db sample_create).imp fun _ h => h.1⟩

/-- C6: the whitelist check of claim evaluate at the failing input. Asset 0 of
`whitelist_db` enforces a whitelist and the paying account 0 is not authorized
for it, yet claim evaluate accepts the claim: both accounts the whitelist block
looks up are the claimant. -/
theorem claim_whitelist_skips_payer :
    whitelist_db.find_asset 0 = some
      { issuer := 1, is_transfer_restricted := false, enforce_white_list := true } ∧
    whitelist_db.find_account (sample_claim 10).withdraw_from_account =
      some { authorized_assets := [] } ∧
    account_object.is_authorized_asset { authorized_assets := [] } 0 = false ∧
    withdraw_permission_claim_evaluator.do_evaluate whitelist_db (sample_claim 10) = .ok () :=
  ⟨rfl, rfl, rfl, rfl⟩

/-- C7: claim authorization. Claim evaluate succeeds only if the referenced
permission exists, its expiration is strictly after `head_block_time`, its
`authorized_account` is the operation's `withdraw_to_account`, its
`withdraw_from_account` is the operation's `withdraw_from_account`, and the
payer's balance in the claimed asset is at least the claimed amount. -/
theorem claim_evaluate_requires_authorization (d : database)
    (op : withdraw_permission_claim_operation)
    (h : withdraw_permission_claim_evaluator.do_evaluate d op = .ok ()) :
    ∃ permit, d.find_withdraw_permission op.withdraw_permission = some permit ∧
      permit.expiration > d.head_block_time ∧
      permit.authorized_account = op.withdraw_to_account ∧
      permit.withdraw_from_account = op.withdraw_from_account ∧
      (d.get_balance op.withdraw_from_account op.amount_to_withdraw.asset_id).amount ≥
        op.amount_to_withdraw.amount := by
  obtain ⟨permit, hfind, hexp, hauth, hfrom, -, -, hbal⟩ := claim_do_evaluate_ok d op h
  exact ⟨permit, hfind, hexp, hauth, hfrom, hbal⟩

/-- A claim of 40 at time 1000 passes claim evaluate, and the four conditions
hold for `sample_permit`. -/
theorem claim_evaluate_requires_authorization_witness :
    withdraw_permission_claim_evaluator.do_evaluate (sample_permit_db 1000) (sample_claim 40)
      = .ok () ∧
    ∃ permit, (sample_permit_db 1000).find_withdraw_permission 0 = some permit ∧
      permit.expiration > 1000 ∧
      permit.authorized_account = 1 ∧
      permit.withdraw_from_account = 0 ∧
      ((sample_permit_db 1000).get_balance 0 0).amount ≥ 40 :=
  ⟨rfl, claim_evaluate_requires_authorization (sample_permit_db 1000) (sample_claim 40) rfl⟩

/-- C8, as stated, fails: after create, a claim of 40 and an update that lowers
the limit to 10, all of which go through, permission 0 has been claimed from and
its `claimed_this_period` of 40 is above its `withdrawal_limit.amount` of 10. -/
theorem limit_exceeded_after_update :
    apply_operations sample_db sample_lowered_steps = .ok sample_lowered_db ∧
    0 ∈ claimed_permissions sample_lowered_steps ∧
    sample_lowered_db.find_withdraw_permission 0 = some sample_lowered_permit ∧
    ¬ (sample_lowered_permit.claimed_this_period
        ≤ sample_lowered_permit.withdrawal_limit.amount) :=
  ⟨rfl, by decide, rfl, by decide⟩

/-- C8, amended: in every state reached from any state by a sequence of create,
claim, update and delete operations that all go through (each evaluate followed
by its apply, each at its own chain time), a stored permission that the
sequence has claimed from satisfies
`claimed_this_period ≤ withdrawal_limit.amount` if and only if it is not among
`lowered_permissions`, that is, unless the last claim or update of that
permission in the sequence was an update that set `withdrawal_limit.amount`
below the `claimed_this_period` stored at that time. -/
theorem limit_invariant_unless_lowered (d d2 : database) (steps : List (Nat × operation))
    (hrun : apply_operations d steps = .ok d2) :
    ∀ id ∈ claimed_permissions steps, ∀ p, d2.find_withdraw_permission id = some p →
      (p.claimed_this_period ≤ p.withdrawal_limit.amount ↔
        id ∉ lowered_permissions d steps) := by
  intro id hid p hp
  have hinv : within_limit_unless d [] [] := fun id hid => absurd hid (List.not_mem_nil _)
  have hexc : exceeds_limit d [] := fun id hid => absurd hid (List.not_mem_nil _)
  constructor
  · intro hle hmem
    have hlt := (apply_operations_exceeds_limit steps d d2 [] hexc hrun id hmem).2 p hp
    exact absurd hle (not_le.mpr hlt)
  · intro hnl
    exact (apply_operations_within_limit_unless steps d d2 [] [] hinv hrun id
      (by simpa using hid) hnl).2 p hp

/-- After create, an update that raises the limit to 200 and a claim of 150,
permission 0 is not among the lowered ones and its counter of 150 is within its
limit of 200. -/
theorem limit_invariant_unless_lowered_witness :
    apply_operations sample_db sample_raised_steps = .ok sample_raised_db ∧
    0 ∈ claimed_permissions sample_raised_steps ∧
    sample_raised_db.find_withdraw_permission 0 = some sample_raised_permit ∧
    0 ∉ lowered_permissions sample_db sample_raised_steps ∧
    sample_raised_permit.claimed_this_period ≤ sample_raised_permit.withdrawal_limit.amount :=
  ⟨rfl, by decide, rfl, by decide,
    (limit_invariant_unless_lowered sample_db sample_raised_db sample_raised_steps rfl 0
      (by decide) sample_raised_permit rfl).mpr (by decide)⟩

/-- C9: the period start at the failing input. Right after `sample_create` has
gone through at time 500, permission 0 has `period_start_time = 1000`; a claim
of 10 at that same time 500 passes claim evaluate, and claim apply moves
`period_start_time` back to 500: the quotient `(500 − 1000) / 100 = −5` is
negative and `−5 * 100` is added to the period start. -/
theorem claim_before_period_start_moves_start_back :
    apply_operation sample_db (.withdraw_permission_create sample_create)
      = .ok (sample_permit_db 500) ∧
    (sample_permit_db 500).find_withdraw_permission 0 = some sample_permit ∧
    sample_permit.period_start_time = 1000 ∧
    sample_permit.elapsed_periods 500 = -5 ∧
    withdraw_permission_claim_evaluator.do_evaluate (sample_permit_db 500) (sample_claim 10)
      = .ok () ∧
    ∃ d2, withdraw_permission_claim_evaluator.do_apply (sample_permit_db 500) (sample_claim 10)
        = .ok d2 ∧
      d2.find_withdraw_permission 0 =
        some { sample_permit with period_start_time := 500, claimed_this_period := 10 } :=
  ⟨rfl, rfl, rfl, by decide, rfl, _, rfl, rfl⟩

/-- C10, as stated, fails: on `sample_permit_db 1000`, at chain time 1000, the
permission of `wrapping_update` is stored, the operation's accounts are the
stored ones, the asset exists, the fields are 32-bit values,
`period_start_time = 1000 ≥ 1000`, the sum `1000 + 1 * 4294966396` is above
1000 and `withdrawal_period_sec ≥ 5`; yet update evaluate rejects it: the sum
the code compares with the chain time is that sum reduced modulo `2 ^ 32`,
which is 100. -/
theorem update_evaluate_rejects_wrapped_sum :
    (sample_permit_db 1000).find_withdraw_permission wrapping_update.permission_to_update
      = some sample_permit ∧
    wrapping_update.withdraw_from_account = sample_permit.withdraw_from_account ∧
    wrapping_update.authorized_account = sample_permit.authorized_account ∧
    ((sample_permit_db 1000).find_asset wrapping_update.withdrawal_limit.asset_id).isSome
      = true ∧
    wrapping_update.period_start_time < 2 ^ 32 ∧
    wrapping_update.periods_until_expiration < 2 ^ 32 ∧
    wrapping_update.withdrawal_period_sec < 2 ^ 32 ∧
    wrapping_update.period_start_time ≥ (sample_permit_db 1000).head_block_time ∧
    wrapping_update.period_start_time
      + wrapping_update.periods_until_expiration * wrapping_update.withdrawal_period_sec
      > (sample_permit_db 1000).head_block_time ∧
    wrapping_update.withdrawal_period_sec ≥ (sample_permit_db 1000).block_interval ∧
    withdraw_permission_update_evaluator.do_evaluate (sample_permit_db 1000) wrapping_update
      = .error .assert_exception :=
  ⟨rfl, rfl, rfl, rfl, by decide, by decide, by decide, by decide, by decide, by decide, rfl⟩

/-- C10, amended: update validation. For an update of a stored permission,
update evaluate succeeds if and only if the operation's `withdraw_from_account`
and `authorized_account` are the stored ones, the new limit's asset exists, the
new `period_start_time ≥ head_block_time`, the new
`(period_start_time + periods_until_expiration * withdrawal_period_sec) mod 2 ^ 32
> head_block_time`, and the new `withdrawal_period_sec ≥ block_interval`. In
particular it fails whenever either account differs. -/
theorem update_evaluate_succeeds_iff_mod (d : database)
    (op : withdraw_permission_update_operation)
    (permit : withdraw_permission_object)
    (hfind : d.find_withdraw_permission op.permission_to_update = some permit) :
    (withdraw_permission_update_evaluator.do_evaluate d op = .ok () ↔
      (op.withdraw_from_account = permit.withdraw_from_account ∧
       op.authorized_account = permit.authorized_account ∧
       (d.find_asset op.withdrawal_limit.asset_id).isSome = true ∧
       op.period_start_time ≥ d.head_block_time ∧
       (op.period_start_time + op.periods_until_expiration * op.withdrawal_period_sec) % 2 ^ 32
         > d.head_block_time ∧
       op.withdrawal_period_sec ≥ d.block_interval)) ∧
    ((op.withdraw_from_account ≠ permit.withdraw_from_account ∨
        op.authorized_account ≠ permit.authorized_account) →
      ∃ e, withdraw_permission_update_evaluator.do_evaluate d op = .error e) := by
  have key : withdraw_permission_update_evaluator.do_evaluate d op = .ok () ↔
      (op.withdraw_from_account = permit.withdraw_from_account ∧
       op.authorized_account = permit.authorized_account ∧
       (d.find_asset op.withdrawal_limit.asset_id).isSome = true ∧
       op.period_start_time ≥ d.head_block_time ∧
       (op.period_start_time + op.periods_until_expiration * op.withdrawal_period_sec) % 2 ^ 32
         > d.head_block_time ∧
       op.withdrawal_period_sec ≥ d.block_interval) := by
    rw [update_do_evaluate_ok_iff]
    constructor
    · rintro ⟨p, hp, h⟩
      rw [hfind] at hp
      cases hp
      exact h
    · intro h
      exact ⟨permit, hfind, h⟩
  refine ⟨key, fun hne => ?_⟩
  rcases except_ok_or_error (withdraw_permission_update_evaluator.do_evaluate d op) with
    ⟨u, hu⟩ | he
  · exfalso
    obtain ⟨h1, h2, -⟩ := key.mp hu
    rcases hne with h | h
    · exact h h1
    · exact h h2
  · exact he

/-- The operation `sample_update` on `sample_permit` at time 1000, the new
period start being equal to the chain time: update evaluate succeeds. -/
theorem update_evaluate_succeeds_iff_mod_witness :
    (sample_permit_db 1000).find_withdraw_permission sample_update.permission_to_update
      = some sample_permit ∧
    sample_update.period_start_time = (sample_permit_db 1000).head_block_time ∧
    withdraw_permission_update_evaluator.do_evaluate (sample_permit_db 1000) sample_update
      = .ok () :=
  ⟨rfl, rfl,
    (update_evaluate_succeeds_iff_mod (sample_permit_db 1000) sample_update
      sample_permit rfl).1.mpr (by decide)⟩

/-- C11, as stated, fails: update apply of `overflow_update`, whose fields are
32-bit values, on `sample_permit_db 1000` stores the expiration 1004, which is
not `period_start_time + periods_until_expiration * withdrawal_period_sec
= 1000 + 42949673 * 100 = 4294968300`. -/
theorem update_apply_stores_wrapped_expiration :
    (sample_permit_db 1000).find_withdraw_permission overflow_update.permission_to_update
      = some sample_permit ∧
    withdraw_permission_update_evaluator.do_apply (sample_permit_db 1000) overflow_update
      = .ok overflow_update_db ∧
    overflow_update_db.find_withdraw_permission 0
      = some { sample_permit with expiration := 1004 } ∧
    overflow_update.period_start_time < 2 ^ 32 ∧
    overflow_update.periods_until_expiration < 2 ^ 32 ∧
    overflow_update.withdrawal_period_sec < 2 ^ 32 ∧
    overflow_update.period_start_time
      + overflow_update.periods_until_expiration * overflow_update.withdrawal_period_sec
      = 4294968300 ∧
    ¬ ((1004 : Nat) = overflow_update.period_start_time
      + overflow_update.periods_until_expiration * overflow_update.withdrawal_period_sec) :=
  ⟨rfl, rfl, rfl, by decide, by decide, by decide, by decide, by decide⟩

/-- C11, amended: update frame. Update apply on a stored permission completes
and stores, under the same identifier, the permission whose `period_start_time`,
`withdrawal_limit` and `withdrawal_period_sec` are the operation's, whose
expiration is
`(period_start_time + periods_until_expiration * withdrawal_period_sec) mod 2 ^ 32`,
and whose `claimed_this_period`, `withdraw_from_account` and
`authorized_account` are the stored ones. Every other permission, every
balance, and the rest of the database are unchanged. -/
theorem update_apply_frame_mod (d : database) (op : withdraw_permission_update_operation)
    (permit : withdraw_permission_object)
    (hfind : d.find_withdraw_permission op.permission_to_update = some permit) :
    ∃ d2, withdraw_permission_update_evaluator.do_apply d op = .ok d2 ∧
      d2.find_withdraw_permission op.permission_to_update = some
        { withdraw_from_account := permit.withdraw_from_account
          authorized_account := permit.authorized_account
          withdrawal_limit := op.withdrawal_limit
          withdrawal_period_sec := op.withdrawal_period_sec
          period_start_time := op.period_start_time
          expiration := (op.period_start_time
            + op.periods_until_expiration * op.withdrawal_period_sec) % 2 ^ 32
          claimed_this_period := permit.claimed_this_period } ∧
      (∀ id, id ≠ op.permission_to_update →
        d2.find_withdraw_permission id = d.find_withdraw_permission id) ∧
      d2.balances = d.balances ∧ d2.accounts = d.accounts ∧ d2.assets = d.assets ∧
      d2.head_block_time = d.head_block_time ∧ d2.block_interval = d.block_interval := by
  rw [← time_point_sec_add_uint32_mul]
  refine ⟨_, update_do_apply_of_find d op permit hfind, ?_, ?_, rfl, rfl, rfl, rfl, rfl⟩
  · rw [find_withdraw_permission_modify_same _ _ _ (find_withdraw_permission_lt _ _ _ hfind)]
  · intro id hid
    exact find_withdraw_permission_modify_other _ _ _ _ hid

/-- The operation `sample_update` applied to `sample_permit` at time 1000: only
the limit changes, to 10. -/
theorem update_apply_frame_mod_witness :
    (sample_permit_db 1000).find_withdraw_permission sample_update.permission_to_update
      = some sample_permit ∧
    withdraw_permission_update_evaluator.do_apply (sample_permit_db 1000) sample_update
      = .ok { sample_permit_db 1000 with withdraw_permissions :=
          [some { sample_permit with withdrawal_limit := { amount := 10, asset_id := 0 } }] } ∧
    (∃ d2, withdraw_permission_update_evaluator.do_apply (sample_permit_db 1000) sample_update
      = .ok d2) :=
  ⟨rfl, rfl, (update_apply_frame_mod (sample_permit_db 1000) sample_update sample_permit rfl).imp
    fun _ h => h.1⟩

/-- C12: delete validation. For a delete of a stored permission, delete evaluate
succeeds if and only if the operation's `authorized_account` and
`withdraw_from_account` both equal the stored ones; when either differs,
evaluate fails and the submitted operation leaves the database as it was. -/
theorem delete_evaluate_succeeds_iff (d : database) (op : withdraw_permission_delete_operation)
    (permit : withdraw_permission_object)
    (hfind : d.find_withdraw_permission op.withdrawal_permission = some permit) :
    (withdraw_permission_delete_evaluator.do_evaluate d op = .ok () ↔
      (op.authorized_account = permit.authorized_account ∧
       op.withdraw_from_account = permit.withdraw_from_account)) ∧
    ((op.authorized_account ≠ permit.authorized_account ∨
        op.withdraw_from_account ≠ permit.withdraw_from_account) →
      (∃ e, withdraw_permission_delete_evaluator.do_evaluate d op = .error e) ∧
      push_operation d (.withdraw_permission_delete op) = d) := by
  have key : withdraw_permission_delete_evaluator.do_evaluate d op = .ok () ↔
      (op.authorized_account = permit.authorized_account ∧
       op.withdraw_from_account = permit.withdraw_from_account) := by
    rw [delete_do_evaluate_eq_ok]
    constructor
    · rintro ⟨p, hp, h1, h2⟩
      rw [hfind] at hp
      cases hp
      exact ⟨h1.symm, h2.symm⟩
    · rintro ⟨h1, h2⟩
      exact ⟨permit, hfind, h1.symm, h2.symm⟩
  refine ⟨key, fun hne => ?_⟩
  have hfail : ∃ e, withdraw_permission_delete_evaluator.do_evaluate d op = .error e := by
    rcases except_ok_or_error (withdraw_permission_delete_evaluator.do_evaluate d op) with
      ⟨u, hu⟩ | he
    · exfalso
      obtain ⟨h1, h2⟩ := key.mp hu
      rcases hne with h | h
      · exact h h1
      · exact h h2
    · exact he
  refine ⟨hfail, ?_⟩
  obtain ⟨e, he⟩ := hfail
  simp [push_operation, apply_operation, he, bind, Except.bind]

/-- Scenario B: a delete of `sample_permit` that names account 0 as
`authorized_account` (the stored one is account 1) fails and leaves the
database unchanged. -/
theorem delete_evaluate_succeeds_iff_witness :
    (sample_permit_db 1000).find_withdraw_permission 0 = some sample_permit ∧
    ((∃ e, withdraw_permission_delete_evaluator.do_evaluate (sample_permit_db 1000)
        { withdraw_from_account := 0, authorized_account := 0, withdrawal_permission := 0 }
        = .error e) ∧
      push_operation (sample_permit_db 1000) (.withdraw_permission_delete
        { withdraw_from_account := 0, authorized_account := 0, withdrawal_permission := 0 })
        = sample_permit_db 1000) :=
  ⟨rfl, (delete_evaluate_succeeds_iff (sample_permit_db 1000)
    { withdraw_from_account := 0, authorized_account := 0, withdrawal_permission := 0 }
    sample_permit rfl).2 (Or.inl (by decide))⟩

/-- C13: delete apply. On a database that stores the referenced permission,
delete apply completes, the lookup of that identifier then finds nothing, and
every other permission, every balance and the rest of the database are
unchanged; the identifier is not handed out again. -/
theorem delete_apply_removes (d : database) (op : withdraw_permission_delete_operation)
    (permit : withdraw_permission_object)
    (hfind : d.find_withdraw_permission op.withdrawal_permission = some permit) :
    ∃ d2, withdraw_permission_delete_evaluator.do_apply d op = .ok d2 ∧
      d2.find_withdraw_permission op.withdrawal_permission = none ∧
      (∀ id, id ≠ op.withdrawal_permission →
        d2.find_withdraw_permission id = d.find_withdraw_permission id) ∧
      d2.balances = d.balances ∧ d2.accounts = d.accounts ∧ d2.assets = d.assets ∧
      d2.head_block_time = d.head_block_time ∧ d2.block_interval = d.block_interval ∧
      d2.get_next_id = d.get_next_id := by
  refine ⟨_, delete_do_apply_of_find d op permit hfind,
    find_withdraw_permission_remove_same _ _,
    fun id hid => find_withdraw_permission_remove_other _ _ _ hid, rfl, rfl, rfl, rfl, rfl, ?_⟩
  simp [database.remove, database.get_next_id]

/-- Deleting permission 0 of `sample_permit_db 1000` leaves the slot empty. -/
theorem delete_apply_removes_witness :
    (sample_permit_db 1000).find_withdraw_permission 0 = some sample_permit ∧
    withdraw_permission_delete_evaluator.do_apply (sample_permit_db 1000)
        { withdraw_from_account := 0, authorized_account := 1, withdrawal_permission := 0 }
      = .ok { sample_permit_db 1000 with withdraw_permissions := [none] } ∧
    (∃ d2, withdraw_permission_delete_evaluator.do_apply (sample_permit_db 1000)
        { withdraw_from_account := 0, authorized_account := 1, withdrawal_permission := 0 }
      = .ok d2) :=
  ⟨rfl, rfl, (delete_apply_removes (sample_permit_db 1000)
    { withdraw_from_account := 0, authorized_account := 1, withdrawal_permission := 0 }
    sample_permit rfl).imp fun _ h => h.1⟩

/-- C14: claim balance transfer. When claim apply completes for a claim of
amount `a` in asset `x` whose payer and claimant differ, the payer's balance in
`x` is `a` lower, the claimant's balance in `x` is `a` higher, every other
(account, asset) balance is as before, and the total of `x` over any list of
distinct accounts that contains both is unchanged. -/
theorem claim_apply_transfers_balance (d d2 : database)
    (op : withdraw_permission_claim_operation)
    (hne : op.withdraw_from_account ≠ op.withdraw_to_account)
    (happly : withdraw_permission_claim_evaluator.do_apply d op = .ok d2) :
    d2.get_balance_amount op.withdraw_from_account op.amount_to_withdraw.asset_id
      = d.get_balance_amount op.withdraw_from_account op.amount_to_withdraw.asset_id
        - op.amount_to_withdraw.amount ∧
    d2.get_balance_amount op.withdraw_to_account op.amount_to_withdraw.asset_id
      = d.get_balance_amount op.withdraw_to_account op.amount_to_withdraw.asset_id
        + op.amount_to_withdraw.amount ∧
    (∀ (acct : account_id_type) (y : asset_id_type),
      ¬ (acct = op.withdraw_from_account ∧ y = op.amount_to_withdraw.asset_id) →
      ¬ (acct = op.withdraw_to_account ∧ y = op.amount_to_withdraw.asset_id) →
      d2.get_balance_amount acct y = d.get_balance_amount acct y) ∧
    (∀ accts : List account_id_type, accts.Nodup →
      op.withdraw_from_account ∈ accts → op.withdraw_to_account ∈ accts →
      total_supply d2 accts op.amount_to_withdraw.asset_id
        = total_supply d accts op.amount_to_withdraw.asset_id) := by
  have hb := claim_do_apply_balances d d2 op happly
  have hfrom : d2.get_balance_amount op.withdraw_from_account op.amount_to_withdraw.asset_id
      = d.get_balance_amount op.withdraw_from_account op.amount_to_withdraw.asset_id
        - op.amount_to_withdraw.amount := by
    rw [get_balance_amount_eq, get_balance_amount_eq, hb,
      ledger_balance_set_other _ _ _ _ _ _ (fun h => hne h.1), ledger_balance_set_same]
    ring
  have hto : d2.get_balance_amount op.withdraw_to_account op.amount_to_withdraw.asset_id
      = d.get_balance_amount op.withdraw_to_account op.amount_to_withdraw.asset_id
        + op.amount_to_withdraw.amount := by
    rw [get_balance_amount_eq, get_balance_amount_eq, hb, ledger_balance_set_same,
      ledger_balance_set_other _ _ _ _ _ _ (fun h => hne h.1.symm)]
  have hother : ∀ (acct : account_id_type) (y : asset_id_type),
      ¬ (acct = op.withdraw_from_account ∧ y = op.amount_to_withdraw.asset_id) →
      ¬ (acct = op.withdraw_to_account ∧ y = op.amount_to_withdraw.asset_id) →
      d2.get_balance_amount acct y = d.get_balance_amount acct y := by
    intro acct y h1 h2
    rw [get_balance_amount_eq, get_balance_amount_eq, hb,
      ledger_balance_set_other _ _ _ _ _ _ h2, ledger_balance_set_other _ _ _ _ _ _ h1]
  refine ⟨hfrom, hto, hother, ?_⟩
  intro accts hnd hin1 hin2
  unfold total_supply
  have step1 := sum_map_update accts hnd
    (fun acct => d.get_balance_amount acct op.amount_to_withdraw.asset_id)
    (fun acct => ledger_balance (database.set_balance_delta d.balances op.withdraw_from_account
      op.amount_to_withdraw.asset_id (-op.amount_to_withdraw.amount)) acct
      op.amount_to_withdraw.asset_id)
    op.withdraw_from_account (-op.amount_to_withdraw.amount) hin1
    (by simp only [get_balance_amount_eq, ledger_balance_set_same])
    (fun y hy => by
      simp only [get_balance_amount_eq]
      exact ledger_balance_set_other _ _ _ _ _ _ (fun h => hy h.1))
  have step2 := sum_map_update accts hnd
    (fun acct => ledger_balance (database.set_balance_delta d.balances op.withdraw_from_account
      op.amount_to_withdraw.asset_id (-op.amount_to_withdraw.amount)) acct
      op.amount_to_withdraw.asset_id)
    (fun acct => d2.get_balance_amount acct op.amount_to_withdraw.asset_id)
    op.withdraw_to_account op.amount_to_withdraw.amount hin2
    (by simp only [get_balance_amount_eq, hb, ledger_balance_set_same])
    (fun y hy => by
      simp only [get_balance_amount_eq, hb]
      exact ledger_balance_set_other _ _ _ _ _ _ (fun h => hy h.1))
  rw [step2, step1]
  ring

/-- A claim of 60 moves 60 of asset 0 from account 0 (1000 before, 940 after)
to account 1 (0 before, 60 after). -/
theorem claim_apply_transfers_balance_witness :
    (sample_claim 60).withdraw_from_account ≠ (sample_claim 60).withdraw_to_account ∧
    withdraw_permission_claim_evaluator.do_apply (sample_permit_db 1100) (sample_claim 60)
      = .ok sample_rolled_db ∧
    sample_rolled_db.get_balance_amount 0 0 = (sample_permit_db 1100).get_balance_amount 0 0 - 60 ∧
    total_supply sample_rolled_db [0, 1] 0 = total_supply (sample_permit_db 1100) [0, 1] 0 :=
  ⟨by decide, rfl,
    (claim_apply_transfers_balance (sample_permit_db 1100) sample_rolled_db (sample_claim 60)
      (by decide) rfl).1,
    (claim_apply_transfers_balance (sample_permit_db 1100) sample_rolled_db (sample_claim 60)
      (by decide) rfl).2.2.2 [0, 1] (by decide) (by decide) (by decide)⟩

/-- C15: Scenario A, for every chain time `now` from which the two periods fit
in a 32-bit timestamp. The create with `period_start_time = now + 10`, period
3600, two periods and a limit of 100 goes through. A claim of 40 at
`now + 10` goes through and leaves `claimed_this_period = 40`. A claim of 70 at
any time of that same period fails in evaluate. A claim of 60 at
`now + 10 + 3600` goes through and leaves `claimed_this_period = 60` and
`period_start_time = now + 10 + 3600`. The payer starts with a balance of 1000. -/
theorem scenario_a_create_and_claims (now : Nat) (hfit : now + 10 + 2 * 3600 < 2 ^ 32) :
    apply_operation
        (scenario_db now [{ owner := 0, asset_type := 0, balance := 1000 }] [])
        (.withdraw_permission_create (scenario_create now))
      = .ok (scenario_db now [{ owner := 0, asset_type := 0, balance := 1000 }]
          [some (scenario_permit now (now + 10) 0)]) ∧
    apply_operation
        ((scenario_db now [{ owner := 0, asset_type := 0, balance := 1000 }]
          [some (scenario_permit now (now + 10) 0)]).at_time (now + 10))
        (.withdraw_permission_claim (sample_claim 40))
      = .ok (scenario_db (now + 10)
          [{ owner := 0, asset_type := 0, balance := 960 },
            { owner := 1, asset_type := 0, balance := 40 }]
          [some (scenario_permit now (now + 10) 40)]) ∧
    (∀ t, now + 10 ≤ t → t < now + 10 + 3600 →
      ∃ e, withdraw_permission_claim_evaluator.do_evaluate
        ((scenario_db (now + 10)
          [{ owner := 0, asset_type := 0, balance := 960 },
            { owner := 1, asset_type := 0, balance := 40 }]
          [some (scenario_permit now (now + 10) 40)]).at_time t)
        (sample_claim 70) = .error e) ∧
    apply_operation
        ((scenario_db (now + 10)
          [{ owner := 0, asset_type := 0, balance := 960 },
            { owner := 1, asset_type := 0, balance := 40 }]
          [some (scenario_permit now (now + 10) 40)]).at_time (now + 10 + 3600))
        (.withdraw_permission_claim (sample_claim 60))
      = .ok (scenario_db (now + 10 + 3600)
          [{ owner := 0, asset_type := 0, balance := 900 },
            { owner := 1, asset_type := 0, balance := 100 }]
          [some (scenario_permit now (now + 10 + 3600) 60)]) := by
  have hexp : time_point_sec_add (now + 10) (uint32_mul 2 3600) = now + 10 + 2 * 3600 :=
    time_point_sec_add_exact _ _ _ hfit
  refine ⟨?_, ?_, ?_, ?_⟩
  · have hev : withdraw_permission_create_evaluator.do_evaluate
        (scenario_db now [{ owner := 0, asset_type := 0, balance := 1000 }] [])
        (scenario_create now) = .ok 0 := by
      rw [create_do_evaluate_eq_ok]
      refine ⟨rfl, rfl, rfl, ?_, ?_, ?_, rfl⟩
      · show now + 10 > now
        omega
      · show time_point_sec_add (now + 10) (uint32_mul 2 3600) > now
        rw [hexp]; omega
      · show 3600 ≥ 5
        omega
    rw [apply_operation_create_of_evaluate _ _ _ hev]
    simp only [scenario_create, hexp, database.create, scenario_db, scenario_permit,
      List.nil_append]
  · have hq : (scenario_permit now (now + 10) 0).elapsed_periods (now + 10) = ((0 : Nat) : Int) :=
      elapsed_periods_of_window _ _ 0 (by simp [scenario_permit]) (by simp [scenario_permit])
    have hev : withdraw_permission_claim_evaluator.do_evaluate
        ((scenario_db now [{ owner := 0, asset_type := 0, balance := 1000 }]
          [some (scenario_permit now (now + 10) 0)]).at_time (now + 10))
        (sample_claim 40) = .ok () := by
      refine claim_do_evaluate_of_unrestricted _ _ (scenario_permit now (now + 10) 0)
        { issuer := 0, is_transfer_restricted := false, enforce_white_list := false }
        rfl ?_ rfl rfl (by simp [scenario_permit]) ?_
        (by show (1000 : Int) ≥ 40; decide) rfl rfl rfl
      · show now + 10 + 2 * 3600 > now + 10
        omega
      · show (40 : Int) ≤ 100 - (if (scenario_permit now (now + 10) 0).elapsed_periods (now + 10) = 0
          then 0 else 0)
        simp
    rw [apply_operation_claim_of_evaluate _ _ hev,
      claim_do_apply_eq
        ((scenario_db now [{ owner := 0, asset_type := 0, balance := 1000 }]
          [some (scenario_permit now (now + 10) 0)]).at_time (now + 10))
        (sample_claim 40) (scenario_permit now (now + 10) 0) rfl (by simp [scenario_permit])
        (by show (0 : Int) ≤ 1000 - 40; decide) (by show (0 : Int) ≤ 0 + 40; decide)]
    have hq2 : (scenario_permit now (now + 10) 0).elapsed_periods
        ((scenario_db now [{ owner := 0, asset_type := 0, balance := 1000 }]
          [some (scenario_permit now (now + 10) 0)]).at_time (now + 10)).head_block_time = 0 := by
      simpa using hq
    rw [hq2]
    have hs : time_point_sec_add (now + 10) (to_uint32 (0 * ((3600 : Nat) : Int))) = now + 10 := by
      have := period_start_advance_exact (now + 10) 3600 0 (now + 10) (by omega) (by omega)
      simpa using this
    simp only [scenario_permit, sample_claim, scenario_db, database.at_time, hs, if_true,
      List.set_cons_zero]
    rfl
  · intro t ht1 ht2
    rcases except_ok_or_error (withdraw_permission_claim_evaluator.do_evaluate
        ((scenario_db (now + 10)
          [{ owner := 0, asset_type := 0, balance := 960 },
            { owner := 1, asset_type := 0, balance := 40 }]
          [some (scenario_permit now (now + 10) 40)]).at_time t)
        (sample_claim 70)) with ⟨u, hu⟩ | he
    · exfalso
      obtain ⟨permit, hf, -, -, -, -, hle, -⟩ := claim_do_evaluate_ok _ _ hu
      have hp : permit = scenario_permit now (now + 10) 40 := by
        have hf2 : some (scenario_permit now (now + 10) 40) = some permit := hf
        exact (Option.some.inj hf2).symm
      subst hp
      have hq : (scenario_permit now (now + 10) 40).elapsed_periods t = ((0 : Nat) : Int) :=
        elapsed_periods_of_window _ _ 0 (by simpa [scenario_permit] using ht1)
          (by simpa [scenario_permit] using ht2)
      have hq2 : (scenario_permit now (now + 10) 40).elapsed_periods
          ((scenario_db (now + 10)
            [{ owner := 0, asset_type := 0, balance := 960 },
              { owner := 1, asset_type := 0, balance := 40 }]
            [some (scenario_permit now (now + 10) 40)]).at_time t).head_block_time = 0 := by
        simpa using hq
      rw [hq2] at hle
      simp [scenario_permit, sample_claim] at hle
    · exact he
  · have hq : (scenario_permit now (now + 10) 40).elapsed_periods (now + 10 + 3600)
        = ((1 : Nat) : Int) :=
      elapsed_periods_of_window _ _ 1 (by simp [scenario_permit]) (by simp [scenario_permit])
    have hq2 : (scenario_permit now (now + 10) 40).elapsed_periods
        ((scenario_db (now + 10)
          [{ owner := 0, asset_type := 0, balance := 960 },
            { owner := 1, asset_type := 0, balance := 40 }]
          [some (scenario_permit now (now + 10) 40)]).at_time
            (now + 10 + 3600)).head_block_time = 1 := by
      simpa using hq
    have hev : withdraw_permission_claim_evaluator.do_evaluate
        ((scenario_db (now + 10)
          [{ owner := 0, asset_type := 0, balance := 960 },
            { owner := 1, asset_type := 0, balance := 40 }]
          [some (scenario_permit now (now + 10) 40)]).at_time (now + 10 + 3600))
        (sample_claim 60) = .ok () := by
      refine claim_do_evaluate_of_unrestricted _ _ (scenario_permit now (now + 10) 40)
        { issuer := 0, is_transfer_restricted := false, enforce_white_list := false }
        rfl ?_ rfl rfl (by simp [scenario_permit]) ?_
        (by show (960 : Int) ≥ 60; decide) rfl rfl rfl
      · show now + 10 + 2 * 3600 > now + 10 + 3600
        omega
      · rw [hq2]
        show (60 : Int) ≤ 100 - (if (1 : Int) = 0 then 40 else 0)
        decide
    rw [apply_operation_claim_of_evaluate _ _ hev,
      claim_do_apply_eq
        ((scenario_db (now + 10)
          [{ owner := 0, asset_type := 0, balance := 960 },
            { owner := 1, asset_type := 0, balance := 40 }]
          [some (scenario_permit now (now + 10) 40)]).at_time (now + 10 + 3600))
        (sample_claim 60) (scenario_permit now (now + 10) 40) rfl (by simp [scenario_permit])
        (by show (0 : Int) ≤ 960 - 60; decide) (by show (0 : Int) ≤ 40 + 60; decide)]
    rw [hq2]
    have hs : time_point_sec_add (now + 10) (to_uint32 (1 * ((3600 : Nat) : Int)))
        = now + 10 + 3600 := by
      have := period_start_advance_exact (now + 10) 3600 1 (now + 10 + 3600) (by omega)
        (by omega)
      simpa using this
    have h10 : ¬ ((1 : Int) = 0) := by decide
    simp only [scenario_permit, sample_claim, scenario_db, database.at_time, hs, h10, if_false,
      List.set_cons_zero]
    rfl

/-- Scenario A at `now = 500`: the create goes through. -/
theorem scenario_a_create_and_claims_witness :
    500 + 10 + 2 * 3600 < 2 ^ 32 ∧
    apply_operation
        (scenario_db 500 [{ owner := 0, asset_type := 0, balance := 1000 }] [])
        (.withdraw_permission_create (scenario_create 500))
      = .ok (scenario_db 500 [{ owner := 0, asset_type := 0, balance := 1000 }]
          [some (scenario_permit 500 (500 + 10) 0)]) :=
  ⟨by decide, (scenario_a_create_and_claims 500 (by decide)).1⟩

/-- C16, as stated, fails: `overflow_create` has the exact expiration
`1000 + 42949673 * 100 = 2 ^ 32 + 1004`, which does not fit in 32 bits, and all
its fields are 32-bit values; it is not aborted: it goes through on `sample_db`
and the permission it stores has the wrapped-around expiration 1004. -/
theorem expiration_wraps_without_abort :
    overflow_create.period_start_time
      + overflow_create.periods_until_expiration * overflow_create.withdrawal_period_sec
      = 2 ^ 32 + 1004 ∧
    overflow_create.period_start_time < 2 ^ 32 ∧
    overflow_create.periods_until_expiration < 2 ^ 32 ∧
    overflow_create.withdrawal_period_sec < 2 ^ 32 ∧
    apply_operation sample_db (.withdraw_permission_create overflow_create) = .ok overflow_db ∧
    overflow_db.find_withdraw_permission 0 = some { sample_permit with expiration := 1004 } :=
  ⟨by decide, by decide, by decide, by decide, rfl, rfl⟩

/-- C16, amended: overflow of the expiration is not detected. A create goes
through if and only if both accounts and the asset exist,
`period_start_time > head_block_time`,
`(period_start_time + periods_until_expiration * withdrawal_period_sec) mod 2 ^ 32
> head_block_time` and `withdrawal_period_sec ≥ block_interval`; an update goes
through if and only if the permission is stored, the operation's accounts are
the stored ones, the asset exists, `period_start_time ≥ head_block_time`, and
the same two conditions on the sum modulo `2 ^ 32` and on the period hold; in
every other case the operation is aborted. Every create and every update that
goes through stores the expiration
`(period_start_time + periods_until_expiration * withdrawal_period_sec) mod 2 ^ 32`,
which is the exact integer value if and only if that value fits in 32 bits. -/
theorem expiration_overflow_not_detected (d : database)
    (cop : withdraw_permission_create_operation) (uop : withdraw_permission_update_operation) :
    ((∃ d2, apply_operation d (.withdraw_permission_create cop) = .ok d2) ↔
      ((d.find_account cop.withdraw_from_account).isSome = true ∧
       (d.find_account cop.authorized_account).isSome = true ∧
       (d.find_asset cop.withdrawal_limit.asset_id).isSome = true ∧
       cop.period_start_time > d.head_block_time ∧
       (cop.period_start_time + cop.periods_until_expiration * cop.withdrawal_period_sec)
         % 2 ^ 32 > d.head_block_time ∧
       cop.withdrawal_period_sec ≥ d.block_interval)) ∧
    (∀ d2, apply_operation d (.withdraw_permission_create cop) = .ok d2 →
      ∃ p, d2.find_withdraw_permission d.get_next_id = some p ∧
        p.expiration = (cop.period_start_time
          + cop.periods_until_expiration * cop.withdrawal_period_sec) % 2 ^ 32 ∧
        (p.expiration = cop.period_start_time
            + cop.periods_until_expiration * cop.withdrawal_period_sec ↔
          cop.period_start_time
            + cop.periods_until_expiration * cop.withdrawal_period_sec < 2 ^ 32)) ∧
    ((∃ d2, apply_operation d (.withdraw_permission_update uop) = .ok d2) ↔
      ∃ permit, d.find_withdraw_permission uop.permission_to_update = some permit ∧
        uop.withdraw_from_account = permit.withdraw_from_account ∧
        uop.authorized_account = permit.authorized_account ∧
        (d.find_asset uop.withdrawal_limit.asset_id).isSome = true ∧
        uop.period_start_time ≥ d.head_block_time ∧
        (uop.period_start_time + uop.periods_until_expiration * uop.withdrawal_period_sec)
          % 2 ^ 32 > d.head_block_time ∧
        uop.withdrawal_period_sec ≥ d.block_interval) ∧
    (∀ d2, apply_operation d (.withdraw_permission_update uop) = .ok d2 →
      ∃ p, d2.find_withdraw_permission uop.permission_to_update = some p ∧
        p.expiration = (uop.period_start_time
          + uop.periods_until_expiration * uop.withdrawal_period_sec) % 2 ^ 32 ∧
        (p.expiration = uop.period_start_time
            + uop.periods_until_expiration * uop.withdrawal_period_sec ↔
          uop.period_start_time
            + uop.periods_until_expiration * uop.withdrawal_period_sec < 2 ^ 32)) := by
  refine ⟨?_, ?_, ?_, ?_⟩
  · rw [← create_do_evaluate_ok_iff]
    constructor
    · rintro ⟨d2, h⟩
      exact ((apply_operation_create_eq_ok d d2 cop).mp h).1
    · intro h
      exact ⟨_, (apply_operation_create_eq_ok d _ cop).mpr ⟨h, rfl⟩⟩
  · intro d2 h
    obtain ⟨-, hap⟩ := (apply_operation_create_eq_ok d d2 cop).mp h
    have hd2 := (Prod.mk.inj (Except.ok.inj hap)).2
    subst hd2
    refine ⟨_, find_withdraw_permission_create_new d _, time_point_sec_add_uint32_mul _ _ _, ?_⟩
    show time_point_sec_add _ _ = _ ↔ _
    rw [time_point_sec_add_uint32_mul]
    exact mod_two_pow_eq_self_iff _
  · rw [← update_do_evaluate_ok_iff]
    constructor
    · rintro ⟨d2, h⟩
      exact ((apply_operation_update_eq_ok d d2 uop).mp h).1
    · intro h
      obtain ⟨permit, hfind, -⟩ := (update_do_evaluate_eq_ok d uop).mp h
      exact ⟨_, (apply_operation_update_eq_ok d _ uop).mpr
        ⟨h, update_do_apply_of_find d uop permit hfind⟩⟩
  · intro d2 h
    obtain ⟨hev, hap⟩ := (apply_operation_update_eq_ok d d2 uop).mp h
    obtain ⟨permit, hfind, -⟩ := (update_do_evaluate_eq_ok d uop).mp hev
    rw [update_do_apply_of_find d uop permit hfind] at hap
    have hd2 := (Except.ok.inj hap).symm
    subst hd2
    refine ⟨_, find_withdraw_permission_modify_same _ _ _
      (find_withdraw_permission_lt _ _ _ hfind), time_point_sec_add_uint32_mul _ _ _, ?_⟩
    show time_point_sec_add _ _ = _ ↔ _
    rw [time_point_sec_add_uint32_mul]
    exact mod_two_pow_eq_self_iff _

/-- The operations `overflow_create` on `sample_db` and `overflow_update` on
`sample_permit_db 1000`, whose exact expiration is `2 ^ 32 + 1004`: both go
through and store the expiration 1004. -/
theorem expiration_overflow_not_detected_witness :
    apply_operation sample_db (.withdraw_permission_create overflow_create) = .ok overflow_db ∧
    apply_operation (sample_permit_db 1000) (.withdraw_permission_update overflow_update)
      = .ok overflow_update_db ∧
    overflow_update.period_start_time
      + overflow_update.periods_until_expiration * overflow_update.withdrawal_period_sec
      = 2 ^ 32 + 1004 ∧
    (∃ p, overflow_db.find_withdraw_permission sample_db.get_next_id = some p ∧
      p.expiration = (overflow_create.period_start_time
        + overflow_create.periods_until_expiration * overflow_create.withdrawal_period_sec)
        % 2 ^ 32 ∧
      (p.expiration = overflow_create.period_start_time
          + overflow_create.periods_until_expiration * overflow_create.withdrawal_period_sec ↔
        overflow_create.period_start_time
          + overflow_create.periods_until_expiration * overflow_create.withdrawal_period_sec
          < 2 ^ 32)) ∧
    (∃ p, overflow_update_db.find_withdraw_permission overflow_update.permission_to_update
        = some p ∧
      p.expiration = (overflow_update.period_start_time
        + overflow_update.periods_until_expiration * overflow_update.withdrawal_period_sec)
        % 2 ^ 32 ∧
      (p.expiration = overflow_update.period_start_time
          + overflow_update.periods_until_expiration * overflow_update.withdrawal_period_sec ↔
        overflow_update.period_start_time
          + overflow_update.periods_until_expiration * overflow_update.withdrawal_period_sec
          < 2 ^ 32)) :=
  ⟨rfl, rfl, by decide,
    (expiration_overflow_not_detected sample_db overflow_create
      overflow_update).2.1 overflow_db rfl,
    (expiration_overflow_not_detected (sample_permit_db 1000) overflow_create
      overflow_update).2.2.2 overflow_update_db rfl⟩

/-- C17, as stated, fails: a claim of the amount −5 passes claim evaluate on
`sample_permit_db 1000` (−5 is within the limit and within the payer's
balance), and claim apply on the same database and operation stops at the
second balance adjustment, which would leave the claimant with −5. -/
theorem claim_apply_fails_after_evaluate :
    withdraw_permission_claim_evaluator.do_evaluate (sample_permit_db 1000) (sample_claim (-5))
      = .ok () ∧
    (sample_permit_db 1000).get_balance_amount (sample_claim (-5)).withdraw_to_account 0 = 0 ∧
    withdraw_permission_claim_evaluator.do_apply (sample_permit_db 1000) (sample_claim (-5))
      = .error .insufficient_balance :=
  ⟨rfl, rfl, rfl⟩

/-- C17, amended: for each of the four operations, if its evaluate succeeds on
a database then its apply on the same database and the same operation
completes, provided that, when the operation is a claim, the claimed amount is
not negative and the claimant's balance in the claimed asset is not negative. -/
theorem apply_succeeds_after_evaluate (d : database) (o : operation)
    (hclaim : ∀ op, o = .withdraw_permission_claim op →
      0 ≤ op.amount_to_withdraw.amount ∧
      0 ≤ d.get_balance_amount op.withdraw_to_account op.amount_to_withdraw.asset_id)
    (hev : o.do_evaluate d = .ok ()) :
    ∃ d2, o.do_apply d = .ok d2 := by
  cases o with
  | withdraw_permission_create op => exact ⟨_, rfl⟩
  | withdraw_permission_update op =>
    obtain ⟨permit, hfind, -⟩ := (update_do_evaluate_eq_ok d op).mp hev
    exact ⟨_, update_do_apply_of_find d op permit hfind⟩
  | withdraw_permission_delete op =>
    obtain ⟨permit, hfind, -⟩ := (delete_do_evaluate_eq_ok d op).mp hev
    exact ⟨_, delete_do_apply_of_find d op permit hfind⟩
  | withdraw_permission_claim op =>
    obtain ⟨hamt, hto⟩ := hclaim op rfl
    obtain ⟨permit, hfind, -, -, -, hper, -, hbal⟩ := claim_do_evaluate_ok d op hev
    rw [get_balance_amount_eq] at hbal hto
    refine ⟨_, claim_do_apply_eq d op permit hfind hper (by linarith) ?_⟩
    by_cases hsame : op.withdraw_to_account = op.withdraw_from_account
    · rw [hsame, ledger_balance_set_same]
      linarith
    · rw [ledger_balance_set_other _ _ _ _ _ _ (fun h => hsame h.1)]
      linarith

/-- A claim of 40 on `sample_permit_db 1000`: the amount and the claimant's
balance are not negative, evaluate succeeds, and apply completes. -/
theorem apply_succeeds_after_evaluate_witness :
    (0 : share_type) ≤ (sample_claim 40).amount_to_withdraw.amount ∧
    (0 : share_type) ≤ (sample_permit_db 1000).get_balance_amount 1 0 ∧
    operation.do_evaluate (sample_permit_db 1000) (.withdraw_permission_claim (sample_claim 40))
      = .ok () ∧
    ∃ d2, operation.do_apply (sample_permit_db 1000)
      (.withdraw_permission_claim (sample_claim 40)) = .ok d2 :=
  ⟨by decide, by decide, rfl,
    apply_succeeds_after_evaluate (sample_permit_db 1000)
      (.withdraw_permission_claim (sample_claim 40))
      (fun op h => by
        cases h
        exact ⟨by decide, by decide⟩)
      rfl⟩

/-- C18: append-only history. Take a history store, an account whose traversal
reaches the sentinel and yields `old`, and any sequence of appends (for this
account and for others, in any order). After the appends the traversal from
the account's most recent node reaches the sentinel and yields exactly the
records appended for the account, newest first, followed by `old`; with `old`
empty, as in the store before anything was recorded, these are exactly the
appended records in reverse append order. The traversal is a function of the
store, so a second traversal yields the same sequence, and so does any
traversal that is allowed more lookups. -/
theorem account_history_reverse_append_order (h : history_store)
    (account : account_id_type) (old : List operation_history_id_type)
    (hold : h.history account = some old)
    (appends : List (account_id_type × operation_history_id_type)) :
    (h.append_all appends).history account
      = some ((history_store.appended_for appends account).reverse ++ old) ∧
    (∀ more : Nat,
      history_store.history_from (h.append_all appends).account_transaction_histories
        ((h.append_all appends).account_transaction_histories.length + more)
        ((h.append_all appends).most_recent_op account)
      = some ((history_store.appended_for appends account).reverse ++ old)) := by
  have hmain := history_append_all appends h account old hold
  refine ⟨hmain, fun more => ?_⟩
  have := history_from_mono (h.append_all appends).account_transaction_histories [] _ _ _
    hmain more
  rwa [List.append_nil] at this

/-- Scenario C: three operations recorded in block order 1, 2, 3 and appended to
the chain of account 0 of the empty store: the history of account 0 is
[op3, op2, op1]. -/
theorem account_history_reverse_append_order_witness :
    history_store.empty.history 0 = some [] ∧
    sample_history.history 0 = some [2, 1, 0] ∧
    sample_history.records [2, 1, 0] = [some sample_op3, some sample_op2, some sample_op1] ∧
    (history_store.empty.append_all [(0, 0), (0, 1), (0, 2)]).history 0 = some [2, 1, 0] :=
  ⟨rfl, rfl, rfl,
    (account_history_reverse_append_order history_store.empty 0 [] rfl
      [(0, 0), (0, 1), (0, 2)]).1⟩

/-- C19: after claim apply the chain time lies inside the current period. For a
stored permission with `withdrawal_period_sec > 0` and a chain time `t` with
`period_start_time ≤ t`, a completed claim apply leaves a permission with
`period_start_time ≤ t < period_start_time + withdrawal_period_sec`, for which
the number of elapsed periods at `t` is zero; a second claim apply at the same
chain time therefore adds its amount to `claimed_this_period` and leaves
`period_start_time` as it is. -/
theorem claim_apply_keeps_time_in_period (d d2 : database)
    (op : withdraw_permission_claim_operation) (p : withdraw_permission_object)
    (hfind : d.find_withdraw_permission op.withdraw_permission = some p)
    (hper : 0 < p.withdrawal_period_sec)
    (hle : p.period_start_time ≤ d.head_block_time) (hnow : d.head_block_time < 2 ^ 32)
    (happly : withdraw_permission_claim_evaluator.do_apply d op = .ok d2) :
    ∃ p2, d2.find_withdraw_permission op.withdraw_permission = some p2 ∧
      p2.withdrawal_period_sec = p.withdrawal_period_sec ∧
      p2.period_start_time ≤ d.head_block_time ∧
      d.head_block_time < p2.period_start_time + p2.withdrawal_period_sec ∧
      d2.head_block_time = d.head_block_time ∧
      p2.elapsed_periods d2.head_block_time = 0 ∧
      ∀ (op2 : withdraw_permission_claim_operation) (d3 : database),
        op2.withdraw_permission = op.withdraw_permission →
        withdraw_permission_claim_evaluator.do_apply d2 op2 = .ok d3 →
        d3.find_withdraw_permission op.withdraw_permission = some
          { p2 with claimed_this_period :=
              p2.claimed_this_period + op2.amount_to_withdraw.amount } := by
  obtain ⟨hhead, hf2⟩ := claim_do_apply_find d d2 op p hfind happly
  have h1 : p.period_start_time
      + (d.head_block_time - p.period_start_time) / p.withdrawal_period_sec
        * p.withdrawal_period_sec ≤ d.head_block_time := by
    have := Nat.div_mul_le_self (d.head_block_time - p.period_start_time) p.withdrawal_period_sec
    omega
  have h2 : d.head_block_time < p.period_start_time
      + (d.head_block_time - p.period_start_time) / p.withdrawal_period_sec
        * p.withdrawal_period_sec + p.withdrawal_period_sec := by
    have := Nat.lt_div_mul_add (a := d.head_block_time - p.period_start_time) hper
    omega
  have hq := elapsed_periods_of_window p d.head_block_time _ h1 h2
  rw [hq, period_start_advance_exact _ _ _ _ hnow h1] at hf2
  refine ⟨_, hf2, rfl, h1, h2, hhead, ?_, ?_⟩
  · rw [hhead]
    exact elapsed_periods_of_window _ d.head_block_time 0 (by simpa using h1) (by simpa using h2)
  · intro op2 d3 hid happly2
    rw [← hid] at hf2 ⊢
    obtain ⟨-, hf3⟩ := claim_do_apply_find d2 d3 op2 _ hf2 happly2
    rw [hf3, hhead]
    have hq0 := elapsed_periods_of_window
      { p with
        period_start_time := p.period_start_time
          + (d.head_block_time - p.period_start_time) / p.withdrawal_period_sec
            * p.withdrawal_period_sec
        claimed_this_period :=
          if (((d.head_block_time - p.period_start_time) / p.withdrawal_period_sec : Nat) : Int) = 0
          then p.claimed_this_period + op.amount_to_withdraw.amount
          else op.amount_to_withdraw.amount }
      d.head_block_time 0 (by simpa using h1) (by simpa using h2)
    rw [hq0]
    simp only [Nat.cast_zero, Int.zero_mul, if_true]
    have h0 : to_uint32 0 = 0 := by simp [to_uint32]
    rw [h0]
    unfold time_point_sec_add
    rw [Nat.add_zero, Nat.mod_eq_of_lt (by omega)]

/-- A claim of 40 at time 1150 on `sample_permit`: the period start moves to
1100, and 1100 ≤ 1150 < 1200. -/
theorem claim_apply_keeps_time_in_period_witness :
    (sample_permit_db 1150).find_withdraw_permission (sample_claim 40).withdraw_permission
      = some sample_permit ∧
    0 < sample_permit.withdrawal_period_sec ∧
    sample_permit.period_start_time ≤ (sample_permit_db 1150).head_block_time ∧
    (sample_permit_db 1150).head_block_time < 2 ^ 32 ∧
    (withdraw_permission_claim_evaluator.do_apply (sample_permit_db 1150)
      (sample_claim 40)).isOk = true ∧
    ∃ p2 : withdraw_permission_object,
      p2.period_start_time ≤ 1150 ∧ 1150 < p2.period_start_time + p2.withdrawal_period_sec :=
  ⟨rfl, by decide, by decide, by decide, rfl,
    (claim_apply_keeps_time_in_period (sample_permit_db 1150) _ (sample_claim 40) sample_permit
      rfl (by decide) (by decide) (by decide) rfl).imp fun _ h => ⟨h.2.2.1, h.2.2.2.1⟩⟩

end graphene.chain
